import Mathlib

/-!
Shallow embedding of `pipeline_input_scripts/generate_chip_input_json.py`
(the reconciliation and synthesis engine of the repository).

The embedding mirrors the body of `main()` after the portal data has been
fetched: the genome/asset selection fold (source lines 287-335), the
pipeline-type fold (337-367), the per-experiment fastq loop (389-470), the
control-resolution loop (476-592), the column assembly (594-652) and the
per-row emission with field pruning (654-712).

Conventions of the embedding:
* pandas `NaN` cells are `Option.none`;
* Python exceptions that are not caught by the source (`ValueError` from
  `min([])`, `StopIteration` from `next(iter(set()))`, `KeyError` from
  `dict.pop`/`DataFrame.drop`, and the `ValueError` raised when a column
  list does not match the index length) are modelled as `Except.error` of a
  `Crash` value that aborts the whole run, exactly as they abort the
  Python process;
* the caught `Warning` used as control flow in the control loop is modelled
  by the `CtlExc.warn` constructor, which `controlStep` turns back into the
  per-experiment error bookkeeping of the `except Warning:` handler;
* Python `set` objects are insertion-ordered duplicate-free lists
  (`setInsert`); `next(iter(s))` picks an element of such a list through an
  explicit iteration-order parameter `pick`, because CPython's iteration
  order over string sets is not a function of the data alone.
-/

/-- JSON-like cell values of the output table. -/
inductive JVal where
  | null
  | bool (b : Bool)
  | int (n : Int)
  | str (s : String)
  | strList (l : List String)
  | optList (l : List (Option String))
deriving DecidableEq

/-- Uncaught Python exceptions: these abort the whole run. -/
inductive Crash where
  | valueError
  | stopIteration
  | lengthMismatch (col : String)
  | keyError (k : String)
deriving DecidableEq

/-- One row of the file report (`file_input_df`), keyed by `link`
(the `href`/`s3_uri` column chosen as index). -/
structure FileRecord where
  atId : String
  link : String
  dataset : String
  file_format : String
  biorep_scalar : Nat
  paired_end : Option String
  paired_with : Option String
  run_type : Option String
  mapped_run_type : Option String
  read_length : Int
  cropped_read_length : Option Int
  cropped_read_length_tolerance : Option Int
  status : String
  replicate_status : String
deriving DecidableEq

/-- One replicate of an experiment (antibody targets and organism name). -/
structure Replicate where
  antibodyTargets : Option (List String)
  organism : String
deriving DecidableEq

/-- One row of the experiment report (`experiment_input_df`). -/
structure ExperimentRecord where
  accession : String
  assay_title : String
  control_type : Option String
  possible_controls : List String
  replicates : List Replicate
  files : List String
deriving DecidableEq

/-- One row of the caller's input table (`infile_df`), with the per-run
override columns the loops consume. -/
structure InfileRow where
  accession : String
  align_only : Bool
  custom_message : String
deriving DecidableEq

/-- The full input of one synthesis run, as shaped by the excluded
metadata-retrieval collaborator.  `linkPre` is the source's `link_prefix`. -/
structure Inputs where
  infile : List InfileRow
  experiments : List ExperimentRecord
  files : List FileRecord
  wildtype_ctl_ids : List String
  use_custom_crop_length_flag : Bool
  custom_crop_lengths : List Int
  force_ses : List Bool
  multiple_controls : List Bool
  redacted_flags : List (Option Bool)
  linkPre : String
deriving DecidableEq

def allowedStatuses : List String := ["released", "in progress"]

/-- Python `set.add` on an insertion-ordered duplicate-free list. -/
def setInsert {α : Type} [DecidableEq α] (l : List α) (x : α) : List α :=
  if x ∈ l then l else l ++ [x]

/-- Iteration order over a Python `set` of `run_type` labels:
`next(iter(s))` returns `pick s`.  CPython fixes no order, so the order is
a parameter of the run. -/
abbrev Pick := List (Option String) → Option (Option String)

/-- A `pick` is a possible iteration order: on a non-empty set it returns a
member of the set. -/
def ValidPick (pick : Pick) : Prop :=
  (∀ l x, pick l = some x → x ∈ l) ∧ (∀ l, l ≠ [] → (pick l).isSome)

/-- Canonical iteration order: first inserted element first. -/
def defaultPick : Pick := fun l => l.head?

/-- Another possible iteration order: last inserted element first. -/
def lastPick : Pick := fun l => l.getLast?

/-- `suffix` test on the character list (kernel-computable version of
`String.endsWith`). -/
def strEndsWith (s suf : String) : Bool := suf.data.isSuffixOf s.data

def listSub (needle : List Char) : List Char → Bool
  | [] => needle.isEmpty
  | c :: rest => needle.isPrefixOf (c :: rest) || listSub needle rest

/-- `'needle' in s` of Python (substring test). -/
def containsSub (needle s : String) : Bool := listSub needle.data s.data

/-- `file_input_df.loc[link]` (the file table is keyed by `link`). -/
def findFile (files : List FileRecord) (link : String) : Option FileRecord :=
  files.find? (fun f => f.link == link)

/-- Assigning a list to a DataFrame column: pandas raises `ValueError`
when the list length does not match the index length. -/
def assignColLen {α : Type} (n : Nat) (col : String) (l : List α) :
    Except Crash (List α) :=
  if l.length = n then .ok l else .error (.lengthMismatch col)

/-! ## Genome/Asset Selector (source lines 287-335) -/

def hg38GenomeTsv : String :=
  "https://storage.googleapis.com/encode-pipeline-genome-data/genome_tsv/v3/hg38.tsv"
def hg38ChromSizes : String :=
  "https://www.encodeproject.org/files/GRCh38_EBV.chrom.sizes/@@download/GRCh38_EBV.chrom.sizes.tsv"
def hg38RefFa : String :=
  "https://www.encodeproject.org/files/GRCh38_no_alt_analysis_set_GCA_000001405.15/@@download/GRCh38_no_alt_analysis_set_GCA_000001405.15.fasta.gz"
def humanBlacklist : String :=
  "https://www.encodeproject.org/files/ENCFF356LFX/@@download/ENCFF356LFX.bed.gz"
def humanBlacklist2 : String :=
  "https://www.encodeproject.org/files/ENCFF023CZC/@@download/ENCFF023CZC.bed.gz"
def humanBwaIndex : String :=
  "https://www.encodeproject.org/files/ENCFF643CGH/@@download/ENCFF643CGH.tar.gz"
def humanBowtie2 : String :=
  "https://www.encodeproject.org/files/ENCFF110MCL/@@download/ENCFF110MCL.tar.gz"
def mm10GenomeTsv : String :=
  "https://storage.googleapis.com/encode-pipeline-genome-data/genome_tsv/v3/mm10.tsv"
def mm10ChromSizes : String :=
  "https://www.encodeproject.org/files/mm10_no_alt.chrom.sizes/@@download/mm10_no_alt.chrom.sizes.tsv"
def mm10RefFa : String :=
  "https://www.encodeproject.org/files/mm10_no_alt_analysis_set_ENCODE/@@download/mm10_no_alt_analysis_set_ENCODE.fasta.gz"
def mouseBlacklist : String :=
  "https://www.encodeproject.org/files/ENCFF547MET/@@download/ENCFF547MET.bed.gz"
def mouseBowtie2 : String :=
  "https://www.encodeproject.org/files/ENCFF309GLL/@@download/ENCFF309GLL.tar.gz"

/-- The seven per-experiment asset lists built by the fold at lines
288-328 of the source. -/
structure AssetCols where
  blacklist : List (Option String)
  blacklist2 : List (Option String)
  genome_tsv : List (Option String)
  chrom_sizes : List (Option String)
  ref_fa : List (Option String)
  bowtie2 : List (Option String)
  bwa_index : List (Option String)
deriving DecidableEq

def emptyAssetCols : AssetCols := ⟨[], [], [], [], [], [], []⟩

/-- `organism` set of one experiment (a Python `set`, insertion order). -/
def organismsOf (reps : List Replicate) : List String :=
  reps.foldl (fun acc r => setInsert acc r.organism) []

def mintAssays : List String := ["Mint-ChIP-seq", "Control Mint-ChIP-seq"]
def standardAssays : List String := ["Histone ChIP-seq", "TF ChIP-seq", "Control ChIP-seq"]

/-- One iteration of the asset fold (lines 296-328).  An experiment whose
organism join or assay title matches no branch appends nothing to some of
the lists, leaving them shorter than the index. -/
def assetStepFold (acc : AssetCols) (e : ExperimentRecord) : AssetCols :=
  let org := String.join (organismsOf e.replicates)
  if org = "Homo sapiens" then
    let acc1 := { acc with
      genome_tsv := acc.genome_tsv ++ [some hg38GenomeTsv],
      chrom_sizes := acc.chrom_sizes ++ [some hg38ChromSizes],
      ref_fa := acc.ref_fa ++ [some hg38RefFa] }
    if e.assay_title ∈ mintAssays then
      { acc1 with
        blacklist := acc1.blacklist ++ [some humanBlacklist],
        blacklist2 := acc1.blacklist2 ++ [some humanBlacklist2],
        bowtie2 := acc1.bowtie2 ++ [none],
        bwa_index := acc1.bwa_index ++ [some humanBwaIndex] }
    else if e.assay_title ∈ standardAssays then
      { acc1 with
        blacklist := acc1.blacklist ++ [some humanBlacklist],
        blacklist2 := acc1.blacklist2 ++ [none],
        bowtie2 := acc1.bowtie2 ++ [some humanBowtie2],
        bwa_index := acc1.bwa_index ++ [none] }
    else acc1
  else if org = "Mus musculus" then
    let acc1 := { acc with
      genome_tsv := acc.genome_tsv ++ [some mm10GenomeTsv],
      chrom_sizes := acc.chrom_sizes ++ [some mm10ChromSizes],
      ref_fa := acc.ref_fa ++ [some mm10RefFa] }
    if e.assay_title ∈ mintAssays then
      { acc1 with
        blacklist := acc1.blacklist ++ [none],
        blacklist2 := acc1.blacklist2 ++ [none],
        bowtie2 := acc1.bowtie2 ++ [none],
        bwa_index := acc1.bwa_index ++ [none] }
    else if e.assay_title ∈ standardAssays then
      { acc1 with
        blacklist := acc1.blacklist ++ [some mouseBlacklist],
        blacklist2 := acc1.blacklist2 ++ [none],
        bowtie2 := acc1.bowtie2 ++ [some mouseBowtie2],
        bwa_index := acc1.bwa_index ++ [none] }
    else acc1
  else acc

/-- The asset fold followed by the seven column assignments of lines
329-335, each of which checks the column length against the index. -/
def assetsStage (n : Nat) (exps : List ExperimentRecord) : Except Crash AssetCols := do
  let cols := exps.foldl assetStepFold emptyAssetCols
  let bl ← assignColLen n "chip.blacklist" cols.blacklist
  let bl2 ← assignColLen n "chip.blacklist2" cols.blacklist2
  let gt ← assignColLen n "chip.genome_tsv" cols.genome_tsv
  let cs ← assignColLen n "chip.chrsz" cols.chrom_sizes
  let rf ← assignColLen n "chip.ref_fa" cols.ref_fa
  let bt ← assignColLen n "chip.bowtie2_idx_tar" cols.bowtie2
  let bw ← assignColLen n "chip.bwa_idx_tar" cols.bwa_index
  pure ⟨bl, bl2, gt, cs, rf, bt, bw⟩

/-- One experiment's asset bundle, in the field order of `AssetCols`. -/
structure AssetRow where
  bl : Option String
  bl2 : Option String
  gt : Option String
  cs : Option String
  rf : Option String
  bt : Option String
  bw : Option String
deriving DecidableEq

/-- The fixed asset bundle the spec's pure lookup assigns to a recognized
(species, assay category) pair. -/
def assetBundle (org assay : String) : AssetRow :=
  if org = "Homo sapiens" then
    if assay ∈ mintAssays then
      ⟨some humanBlacklist, some humanBlacklist2, some hg38GenomeTsv,
       some hg38ChromSizes, some hg38RefFa, none, some humanBwaIndex⟩
    else
      ⟨some humanBlacklist, none, some hg38GenomeTsv,
       some hg38ChromSizes, some hg38RefFa, some humanBowtie2, none⟩
  else
    if assay ∈ mintAssays then
      ⟨none, none, some mm10GenomeTsv, some mm10ChromSizes, some mm10RefFa,
       none, none⟩
    else
      ⟨some mouseBlacklist, none, some mm10GenomeTsv, some mm10ChromSizes,
       some mm10RefFa, some mouseBowtie2, none⟩

/-- An experiment the asset selector recognizes: supported organism join
and one of the five assay titles. -/
def RecognizedExp (e : ExperimentRecord) : Prop :=
  (String.join (organismsOf e.replicates) = "Homo sapiens" ∨
   String.join (organismsOf e.replicates) = "Mus musculus") ∧
  (e.assay_title ∈ mintAssays ∨ e.assay_title ∈ standardAssays)

instance (e : ExperimentRecord) : Decidable (RecognizedExp e) := by
  unfold RecognizedExp; infer_instance

/-! ## Pipeline types and Mint aligner columns (source lines 337-367) -/

structure PipelineCols where
  ptypes : List String
  aligners : List String
  useBwaMem : List JVal
  bwaLimit : List JVal
deriving DecidableEq

def pipelineStepFold (acc : PipelineCols) (e : ExperimentRecord) : PipelineCols :=
  if e.control_type.isSome ∧ e.assay_title = "Control ChIP-seq" then
    ⟨acc.ptypes ++ ["control"], acc.aligners ++ [""],
     acc.useBwaMem ++ [.str ""], acc.bwaLimit ++ [.str ""]⟩
  else if e.control_type.isSome ∧ e.assay_title = "Control Mint-ChIP-seq" then
    ⟨acc.ptypes ++ ["control"], acc.aligners ++ ["bwa"],
     acc.useBwaMem ++ [.bool true], acc.bwaLimit ++ [.int 0]⟩
  else if e.assay_title = "TF ChIP-seq" then
    ⟨acc.ptypes ++ ["tf"], acc.aligners ++ [""],
     acc.useBwaMem ++ [.str ""], acc.bwaLimit ++ [.str ""]⟩
  else if e.assay_title = "Histone ChIP-seq" then
    ⟨acc.ptypes ++ ["histone"], acc.aligners ++ [""],
     acc.useBwaMem ++ [.str ""], acc.bwaLimit ++ [.str ""]⟩
  else if e.assay_title = "Mint-ChIP-seq" then
    ⟨acc.ptypes ++ ["histone"], acc.aligners ++ ["bwa"],
     acc.useBwaMem ++ [.bool true], acc.bwaLimit ++ [.int 0]⟩
  else acc

def pipelineCols (exps : List ExperimentRecord) : PipelineCols :=
  exps.foldl pipelineStepFold ⟨[], [], [], []⟩

/-! ## Replicate Fastq Assigner (source lines 389-470) -/

/-- The per-experiment replicate dictionaries `fastqs_by_rep_R1` /
`fastqs_by_rep_R2`, keyed 1..10 (every other key reads `[]`). -/
structure Slots where
  r1 : Nat → List String
  r2 : Nat → List String

def emptySlots : Slots := ⟨fun _ => [], fun _ => []⟩

def updFn (f : Nat → List String) (k : Nat) (v : List String) : Nat → List String :=
  fun j => if j = k then v else f j

/-- `for i in range(k, 11): if r1[i] != []: break` - the first populated
slot at index `k` or later (up to 10). -/
def firstPopFrom (r1 : Nat → List String) (k : Nat) : Option Nat :=
  (List.range' k (11 - k)).find? (fun i => !(r1 i).isEmpty)

/-- Iteration `k` of the gap-squeeze loop (source lines 445-455): when slot
`k` is empty, the next populated slot moves into `k` (both its R1 and R2
lists) and its source is cleared. -/
def fixStep (s : Slots) (k : Nat) : Slots :=
  if (s.r1 k).isEmpty then
    match firstPopFrom s.r1 (k + 1) with
    | some i =>
        ⟨updFn (updFn s.r1 k (s.r1 i)) i [], updFn (updFn s.r2 k (s.r2 i)) i []⟩
    | none => s
  else s

/-- "Fix ordering of reps to prevent non-consecutive numbering"
(source lines 444-455). -/
def fixOrdering (s : Slots) : Slots :=
  (List.range' 1 10).foldl fixStep s

/-- `file_input_df[file_input_df['@id'] == pair].index.values[0]`:
the link of the mate file, or `none` when the lookup raises `IndexError`. -/
def mateLink (files : List FileRecord) (pair : Option String) : Option String :=
  match pair with
  | none => none
  | some p => (files.find? (fun f => f.atId == p)).map (fun f => f.link)

/-- Context shared by the per-experiment loops. -/
structure ExpCtx where
  files : List FileRecord
  linkPre : String
  useCustom : Bool

/-- Scan state of the inner file loop of one experiment. -/
structure FileScan where
  slots : Slots
  readLens : List Int
  rts : List (Option String)
  missTags : List String

/-- One iteration of the file loop (source lines 413-437). -/
def processFile (g : ExpCtx) (acc0 : String) (mapSE : Bool)
    (st : FileScan) (link : String) : FileScan :=
  if strEndsWith link "fastq.gz" then
    match findFile g.files link with
    | none => st
    | some f =>
      if f.status ∈ allowedStatuses ∧ f.replicate_status ∈ allowedStatuses then
        let st1 :=
          if f.paired_end = some "1" then
            if 1 ≤ f.biorep_scalar ∧ f.biorep_scalar ≤ 10 then
              let b := f.biorep_scalar
              let slots1 : Slots :=
                { st.slots with r1 := updFn st.slots.r1 b (st.slots.r1 b ++ [g.linkPre ++ link]) }
              if mapSE then { st with slots := slots1 }
              else
                match mateLink g.files f.paired_with with
                | some ml =>
                    { st with slots :=
                        { slots1 with r2 := updFn slots1.r2 b (slots1.r2 b ++ [g.linkPre ++ ml]) } }
                | none => { st with slots := slots1, missTags := st.missTags ++ [acc0] }
            else st
          else if f.paired_end = none then
            if 1 ≤ f.biorep_scalar ∧ f.biorep_scalar ≤ 10 then
              let b := f.biorep_scalar
              { st with slots :=
                  { st.slots with r1 := updFn st.slots.r1 b (st.slots.r1 b ++ [g.linkPre ++ link]) } }
            else st
          else st
        { st1 with readLens := st1.readLens ++ [f.read_length],
                   rts := setInsert st1.rts f.run_type }
      else st
  else st

/-- Python `min(list)`: `ValueError` on an empty list. -/
def minList (l : List Int) : Except Crash Int :=
  match l with
  | [] => .error .valueError
  | x :: xs => .ok (xs.foldl min x)

/-- Outcome of lines 467-470: `single`/`paired` append a run type to
`experiment_run_types`; `skip` appends nothing (the final `elif` fails),
silently desynchronizing the per-experiment lists. -/
inductive RTOut where
  | single
  | paired
  | skip
deriving DecidableEq

/-- Lines 467-470 of the source.  `next(iter(run_types))` on an empty set
raises `StopIteration`, which nothing catches. -/
def expRunType (pick : Pick) (rts : List (Option String)) : Except Crash RTOut :=
  if (some "single-ended") ∈ rts then .ok .single
  else if rts = [] then .error .stopIteration
  else if pick rts = some (some "paired-ended") then .ok .paired
  else .ok .skip

/-- One row of the experiment loop's zip (source line 389). -/
structure ExpRow where
  efiles : List String
  acc : String
  ccl : Int
  mapSE : Bool
deriving DecidableEq

/-- `zip(experiment_input_df['files'], experiment_input_df['accession'],
custom_crop_lengths, force_ses)`: truncates to the shortest list. -/
def zipExpRows : List (List String) → List String → List Int → List Bool → List ExpRow
  | fs :: fss, a :: accs, c :: ccls, m :: ms =>
      ⟨fs, a, c, m⟩ :: zipExpRows fss accs ccls ms
  | _, _, _, _ => []

/-- Accumulated outputs of the experiment loop. -/
structure ExpState where
  r1m : Nat → List (List String)
  r2m : Nat → List (List String)
  minRLs : List Int
  runTypes : List String
  errNoFastqs : List String
  errMissingPairs : List String

def emptyExpState : ExpState := ⟨fun _ => [], fun _ => [], [], [], [], []⟩

/-- The body of the experiment loop for one experiment
(source lines 395-470). -/
def processExperimentRow (g : ExpCtx) (pick : Pick) (s : ExpState)
    (row : ExpRow) : Except Crash ExpState := do
  let fs := row.efiles.foldl (processFile g row.acc row.mapSE)
      ⟨emptySlots, [], [], []⟩
  let errNF := if (List.range' 1 10).all (fun k => (fs.slots.r1 k).isEmpty)
      then [row.acc] else []
  let slots := fixOrdering fs.slots
  let mrl ← if g.useCustom then .ok row.ccl else minList fs.readLens
  let rt ← expRunType pick fs.rts
  .ok { r1m := fun k => if 1 ≤ k ∧ k ≤ 10 then s.r1m k ++ [slots.r1 k] else s.r1m k,
        r2m := fun k => if 1 ≤ k ∧ k ≤ 10 then s.r2m k ++ [slots.r2 k] else s.r2m k,
        minRLs := s.minRLs ++ [mrl],
        runTypes := s.runTypes ++
          (match rt with
           | .single => ["single-ended"]
           | .paired => ["paired-ended"]
           | .skip => []),
        errNoFastqs := s.errNoFastqs ++ errNF,
        errMissingPairs := s.errMissingPairs ++ fs.missTags }

def expLoop (g : ExpCtx) (pick : Pick) (rows : List ExpRow) :
    Except Crash ExpState :=
  rows.foldlM (processExperimentRow g pick) emptyExpState

/-! ## Control Resolver and Control BAM Matcher (source lines 476-592) -/

/-- Exceptional exits of the control-loop body: `warn` is the `Warning`
raised and caught per experiment (`taggedEnded` records whether
`ERROR_not_matching_endedness` was appended before the raise); `crash` is
an uncaught exception. -/
inductive CtlExc where
  | warn (taggedEnded : Bool)
  | crash (c : Crash)
deriving DecidableEq

/-- Globals read by the control loop. -/
structure CtlGlobals where
  files : List FileRecord
  wildtype : List String
  useCustom : Bool
  linkPre : String
deriving DecidableEq

/-- One row of the control loop's zip (source lines 478-487). -/
structure CtlRow where
  controls : List String
  acc : String
  ptype : String
  ert : String
  replicates : List Replicate
  expRL : Int
  multi : Bool
  mapSE : Bool
deriving DecidableEq

/-- `zip` of the eight per-experiment lists at lines 478-487; truncates to
the shortest. -/
def zipCtlRows : List (List String) → List String → List String → List String →
    List (List Replicate) → List Int → List Bool → List Bool → List CtlRow
  | c :: cs, a :: accs, p :: ps, r :: rs, rep :: reps, m :: ms, u :: us, f :: fs =>
      ⟨c, a, p, r, rep, m, u, f⟩ :: zipCtlRows cs accs ps rs reps ms us fs
  | _, _, _, _, _, _, _, _ => []

/-- Result of one control-loop iteration.  `bams`, `frtB` and `crop` are
the values appended to `ctl_nodup_bams`, `final_run_types` and
`crop_length`; `errCtl` / `errEnded` are the accessions appended to
`ERROR_control_error_detected` / `ERROR_not_matching_endedness`.  The last
three fields expose the row's resolved locals (chosen controls, combined
run type string, combined minimum read length) for specification purposes;
they are not part of the source's output lists. -/
structure RowCore where
  bams : Option (List (Option String))
  frtB : Option Bool
  crop : Option Int
  errCtl : List String
  errEnded : List String
  chosen : List String
  frtS : Option String
  combined : Option Int
deriving DecidableEq

/-- Union of antibody targets over the replicates (lines 500-507); raises
`Warning` at the first replicate without antibody metadata. -/
def antibodyUnion (reps : List Replicate) : Except CtlExc (List String) :=
  reps.foldlM
    (fun acc r =>
      match r.antibodyTargets with
      | some ts => .ok (ts.foldl setInsert acc)
      | none => .error (.warn false))
    []

/-- Control narrowing for multi-control experiments (lines 497-518).
The `narrowed.length = 0` test mirrors the source's dead
`if len(controls) == 0` check: `narrowed` is either `[ctl]` or the
original non-empty list, so the branch never fires. -/
def narrowControls (g : CtlGlobals) (row : CtlRow) : Except CtlExc (List String) := do
  if row.controls.length > 1 ∧ ¬ row.multi then
    let tgts ← antibodyUnion row.replicates
    if String.join tgts = "/targets/eGFP-avictoria/" ∧ row.ptype = "tf" then
      let narrowed :=
        match row.controls.find? (fun c => g.wildtype.contains c) with
        | some c => [c]
        | none => row.controls
      if narrowed.length = 0 then .error (.warn false) else pure narrowed
    else .error (.warn false)
  else pure row.controls

/-- `control_run_types` (lines 520-527): the set of `run_type` labels over
the fastq files of the chosen controls, in file-table insertion order. -/
def ctlRunTypes (files : List FileRecord) (ctls : List String) :
    List (Option String) :=
  ctls.foldl
    (fun acc c =>
      files.foldl
        (fun a f =>
          if f.dataset = c ∧ f.file_format = "fastq" then setInsert a f.run_type
          else a)
        acc)
    []

/-- `control_read_lengths` (lines 528-532). -/
def ctlReadLens (files : List FileRecord) (ctls : List String) : List Int :=
  ctls.foldl
    (fun acc c =>
      acc ++ (files.filter
        (fun f => f.dataset == c && f.file_format == "fastq")).map
        (fun f => f.read_length))
    []

/-- Endedness decision of lines 534-544.  `.ok (some false)` appends
single-ended, `.ok (some true)` appends paired-ended, `.ok none` is the
`else` branch that records `ERROR_not_matching_endedness` and raises
`Warning`; an empty control run-type set raises `StopIteration`. -/
def combinedEndedness (pick : Pick) (crt : List (Option String)) (ert : String)
    (mapSE : Bool) : Except Crash (Option Bool) :=
  if (some "single-ended") ∈ crt ∨ ert = "single-ended" ∨ mapSE = true then
    .ok (some false)
  else if crt = [] then .error .stopIteration
  else if pick crt = some (some "paired-ended") ∧ ert = "paired-ended" then
    .ok (some true)
  else .ok none

/-- The bam filter of lines 559-566 for one (control, replicate) pair. -/
def bamMatch (combined : Int) (frtStr : String) (ctl : String) (rep : Nat)
    (f : FileRecord) : Bool :=
  f.dataset == ctl && f.biorep_scalar == rep && f.file_format == "bam" &&
  f.mapped_run_type == some frtStr &&
  (match f.cropped_read_length with
   | some v => decide (v ≤ combined + 2) && decide (combined - 2 ≤ v)
   | none => false)

/-- `ctl_search` with `.values[0]`: the first matching row of the file
table. -/
def bamForRep (files : List FileRecord) (ctl : String) (rep : Nat)
    (frtStr : String) (combined : Int) : Option FileRecord :=
  files.find? (bamMatch combined frtStr ctl rep)

/-- Replicate scan (lines 557-573) for one control: returns the collector
entries appended for this control and the `matching_bam_found` flag.  A
match with `cropped_read_length_tolerance` other than 2 appends `None`. -/
def bamScanCtl (g : CtlGlobals) (frtStr : String) (combined : Int)
    (ctl : String) : List (Option String) × Bool :=
  (List.range' 1 10).foldl
    (fun st rep =>
      match bamForRep g.files ctl rep frtStr combined with
      | some f =>
          (st.1 ++ [if f.cropped_read_length_tolerance = some 2
                    then some (g.linkPre ++ f.link) else none], true)
      | none => st)
    ([], false)

/-- Lines 555-578: scan every chosen control, accumulating the shared
collector and one `ERROR_control_error_detected` tag per control without a
matching bam. -/
def bamCollect (g : CtlGlobals) (frtStr : String) (combined : Int)
    (acc0 : String) (ctls : List String) : List (Option String) × List String :=
  ctls.foldl
    (fun st ctl =>
      let sc := bamScanCtl g frtStr combined ctl
      (st.1 ++ sc.1, st.2 ++ (if sc.2 then [] else [acc0])))
    ([], [])

/-- The `try:` body of one control-loop iteration (lines 488-587). -/
def controlBody (pick : Pick) (g : CtlGlobals) (row : CtlRow) :
    Except CtlExc RowCore := do
  if row.ptype = "control" then
    .ok ⟨none, some (!(row.ert == "single-ended" || row.mapSE)),
         some row.expRL, [], [], [], none, none⟩
  else if row.controls = [] then
    .error (.warn false)
  else
    let ctls ← narrowControls g row
    let crt := ctlRunTypes g.files ctls
    let crl := ctlReadLens g.files ctls
    match combinedEndedness pick crt row.ert row.mapSE with
    | .error c => .error (.crash c)
    | .ok none => .error (.warn true)
    | .ok (some b) =>
      let frtStr := if b then "paired-ended" else "single-ended"
      let combined := crl.foldl min row.expRL
      let crop := if g.useCustom then row.expRL else combined
      let col := bamCollect g frtStr combined row.acc ctls
      if col.1 = [] then
        .ok ⟨none, some b, some crop, col.2 ++ [row.acc], [], ctls, some frtStr,
             some combined⟩
      else if none ∈ col.1 then
        .ok ⟨none, some b, some crop, col.2 ++ [row.acc], [], ctls, some frtStr,
             some combined⟩
      else
        .ok ⟨some col.1, some b, some crop, col.2, [], ctls, some frtStr,
             some combined⟩

/-- One full control-loop iteration: the `try:` body plus the
`except Warning:` handler of lines 588-592. -/
def controlStep (pick : Pick) (g : CtlGlobals) (row : CtlRow) :
    Except Crash RowCore :=
  match controlBody pick g row with
  | .ok core => .ok core
  | .error (.warn te) =>
      .ok ⟨none, none, none, [row.acc], if te then [row.acc] else [], [], none, none⟩
  | .error (.crash c) => .error c

/-- Accumulated outputs of the control loop. -/
structure CtlOuts where
  bams : List (Option (List (Option String)))
  frts : List (Option Bool)
  crops : List (Option Int)
  errCtl : List String
  errEnded : List String
deriving DecidableEq

def emptyCtlOuts : CtlOuts := ⟨[], [], [], [], []⟩

def ctlAppend (acc : CtlOuts) (c : RowCore) : CtlOuts :=
  ⟨acc.bams ++ [c.bams], acc.frts ++ [c.frtB], acc.crops ++ [c.crop],
   acc.errCtl ++ c.errCtl, acc.errEnded ++ c.errEnded⟩

def ctlLoop (pick : Pick) (g : CtlGlobals) (rows : List CtlRow) :
    Except Crash CtlOuts :=
  rows.foldlM (fun acc row => (controlStep pick g row).map (ctlAppend acc))
    emptyCtlOuts

/-! ## Configuration Assembler (source lines 594-652) and emission
(lines 654-712) -/

/-- `count_reps` (source lines 184-192): number of row values that are
neither `[]` nor contain `None` (the latter never occurs for fastq lists). -/
def countReps (l : List (List String)) : Nat :=
  (l.filter (fun v => !v.isEmpty)).length

/-- `[int(x) if x is not None else '' for x in crop_length]` (line 598). -/
def cropCell : Option Int → JVal
  | some v => .int v
  | none => .str ""

def optStrCell : Option String → JVal
  | some s => .str s
  | none => .null

def optBoolCell : Option Bool → JVal
  | some b => .bool b
  | none => .null

def bamsCell : Option (List (Option String)) → JVal
  | some l => .optList l
  | none => .null

/-- Format a crop cell inside the description f-string. -/
def jvalFormat : JVal → String
  | .int v => toString v
  | .str s => s
  | _ => ""

/-- The description string of lines 625-632. -/
def descriptionOf (title : String) (crop : JVal) (pe : Option Bool)
    (ptype : String) (alignOnly : Bool) (nreps : Nat) (assay : String) : String :=
  title ++ "_" ++ (if pe = some true then "PE" else "SE") ++ "_" ++
  (if !containsSub "Mint" assay then jvalFormat crop ++ "_crop" else "no_crop") ++
  "_" ++ toString nreps ++ "rep_" ++ ptype ++ "_" ++
  (if alignOnly then "alignonly" else "peakcall")

/-- All validated columns of `output_df`, ready to be read row-wise. -/
structure TableCols where
  infile : List InfileRow
  assay : List String
  assets : AssetCols
  frts : List (Option Bool)
  crops : List (Option Int)
  bams : List (Option (List (Option String)))
  aligners : List String
  useBwaMem : List JVal
  bwaLimit : List JVal
  ptypes : List String
  redact : List (Option Bool)
  r1cols : List (List (List String))
  r2cols : List (List (List String))
deriving DecidableEq

/-- One row of `output_df` after all columns are assigned, with the
derived fields (`chip.always_use_pooled_ctl` from line 604, replicate
count from line 612, description from lines 614-633). -/
structure RowData where
  title : String
  align_only : Bool
  custom_message : String
  assay_title : String
  blacklist : Option String
  blacklist2 : Option String
  genome_tsv : Option String
  chrom_sizes : Option String
  ref_fa : Option String
  bowtie2 : Option String
  bwa_index : Option String
  paired_end : Option Bool
  crop : JVal
  bams : Option (List (Option String))
  aligner : String
  useBwaMem : JVal
  bwaLimit : JVal
  ptype : String
  pooled : Option Bool
  redact : Option Bool
  r1 : List (List String)
  r2 : List (List String)
  nreps : Nat
  description : String
deriving DecidableEq

def mkRow (tc : TableCols) (i : Nat) : RowData :=
  let inf := tc.infile.getD i ⟨"", false, ""⟩
  let ptype := tc.ptypes.getD i ""
  let pe := tc.frts.getD i none
  let crop := cropCell (tc.crops.getD i none)
  let r1 := tc.r1cols.map (fun c => c.getD i [])
  let r2 := tc.r2cols.map (fun c => c.getD i [])
  let nreps := countReps r1
  let assay := tc.assay.getD i ""
  { title := inf.accession
    align_only := inf.align_only
    custom_message := inf.custom_message
    assay_title := assay
    blacklist := tc.assets.blacklist.getD i none
    blacklist2 := tc.assets.blacklist2.getD i none
    genome_tsv := tc.assets.genome_tsv.getD i none
    chrom_sizes := tc.assets.chrom_sizes.getD i none
    ref_fa := tc.assets.ref_fa.getD i none
    bowtie2 := tc.assets.bowtie2.getD i none
    bwa_index := tc.assets.bwa_index.getD i none
    paired_end := pe
    crop := crop
    bams := tc.bams.getD i none
    aligner := tc.aligners.getD i ""
    useBwaMem := tc.useBwaMem.getD i (.str "")
    bwaLimit := tc.bwaLimit.getD i (.str "")
    ptype := ptype
    pooled := if ptype ≠ "control" then some true else none
    redact := tc.redact.getD i none
    r1 := r1
    r2 := r2
    nreps := nreps
    description := descriptionOf inf.accession crop pe ptype inf.align_only nreps assay }

/-- The row dictionary in the `desired_key_order` of lines 658-683. -/
def mkRecord (rd : RowData) : List (String × JVal) :=
  [("custom_message", .str rd.custom_message),
   ("assay_title", .str rd.assay_title),
   ("chip.title", .str rd.title),
   ("chip.description", .str rd.description),
   ("chip.pipeline_type", .str rd.ptype),
   ("chip.align_only", .bool rd.align_only),
   ("chip.paired_end", optBoolCell rd.paired_end),
   ("chip.crop_length", rd.crop),
   ("chip.crop_length_tol", .int 2),
   ("chip.genome_tsv", optStrCell rd.genome_tsv),
   ("chip.ref_fa", optStrCell rd.ref_fa),
   ("chip.bowtie2_idx_tar", optStrCell rd.bowtie2),
   ("chip.bwa_idx_tar", optStrCell rd.bwa_index),
   ("chip.chrsz", optStrCell rd.chrom_sizes),
   ("chip.blacklist", optStrCell rd.blacklist),
   ("chip.blacklist2", optStrCell rd.blacklist2),
   ("chip.ctl_nodup_bams", bamsCell rd.bams),
   ("chip.redact_nodup_bam", optBoolCell rd.redact),
   ("chip.always_use_pooled_ctl", optBoolCell rd.pooled),
   ("chip.aligner", .str rd.aligner),
   ("chip.use_bwa_mem_for_pe", rd.useBwaMem),
   ("chip.bwa_mem_read_len_limit", rd.bwaLimit)]
  ++ ((List.range' 1 10).map (fun k =>
      [("chip.fastqs_rep" ++ toString k ++ "_R1", JVal.strList (rd.r1.getD (k - 1) [])),
       ("chip.fastqs_rep" ++ toString k ++ "_R2", JVal.strList (rd.r2.getD (k - 1) []))])).flatten

def lookupVal (r : List (String × JVal)) (k : String) : Option JVal :=
  (r.find? (fun kv => kv.1 == k)).map (fun kv => kv.2)

/-- The pruning test of line 701: `value in (None, [], '') or
(type(value) == list and None in value)`. -/
def isEmptyVal : JVal → Bool
  | .null => true
  | .str s => s == ""
  | .strList l => l.isEmpty
  | .optList l => l.isEmpty || l.contains none
  | _ => false

/-- `dict.pop(key)` without default: `KeyError` when absent. -/
def popReq (r : List (String × JVal)) (k : String) :
    Except Crash (List (String × JVal)) :=
  if (r.find? (fun kv => kv.1 == k)).isSome then
    .ok (r.filter (fun kv => kv.1 != k))
  else .error (.keyError k)

/-- Emission of one row (source lines 685-712, minus the file writes):
drop `_R2` keys when `chip.paired_end is False`, drop empty values, drop
the crop fields for Mint assays, then pop `custom_message` and
`assay_title`. -/
def emitRow (rd : RowData) : Except Crash (String × List (String × JVal)) := do
  let a0 := mkRecord rd
  let a1 := if lookupVal a0 "chip.paired_end" = some (.bool false) then
      a0.filter (fun kv => !strEndsWith kv.1 "_R2")
    else a0
  let a2 := a1.filter (fun kv => !isEmptyVal kv.2)
  let a3 ←
    match lookupVal a2 "assay_title" with
    | none => .error (.keyError "assay_title")
    | some v =>
      if v = .str "Mint-ChIP-seq" ∨ v = .str "Control Mint-ChIP-seq" then do
        let t ← popReq a2 "chip.crop_length"
        popReq t "chip.crop_length_tol"
      else pure a2
  let a4 ← popReq a3 "custom_message"
  let a5 ← popReq a4 "assay_title"
  pure (rd.title, a5)

/-- `output_df.drop(labels)` (lines 645-652): `KeyError` when a label is
not in the index, otherwise every row whose title is a label is removed. -/
def dropStage (rows : List RowData) (labels : List String) :
    Except Crash (List RowData) :=
  if labels.all (fun l => rows.any (fun r => r.title == l)) then
    .ok (rows.filter (fun r => !labels.contains r.title))
  else .error (.keyError "drop")

/-- Result of one synthesis run: the emitted records (in index order) and
the five error-tag lists. -/
structure SynthOut where
  records : List (String × List (String × JVal))
  errNoFastqs : List String
  errMissingPairs : List String
  errCtl : List String
  errEnded : List String
  errNotAlignOnly : List String
deriving DecidableEq

/-- The whole synthesis engine: the body of `main()` from line 262 to
line 712, without the portal fetch and the file writes. -/
def synthesize (pick : Pick) (inp : Inputs) : Except Crash SynthOut := do
  let n := inp.infile.length
  let assayCol ← assignColLen n "assay_title"
      (inp.experiments.map (fun e => e.assay_title))
  let assets ← assetsStage n inp.experiments
  let pc := pipelineCols inp.experiments
  let g : ExpCtx := ⟨inp.files, inp.linkPre, inp.use_custom_crop_length_flag⟩
  let eOut ← expLoop g pick
      (zipExpRows (inp.experiments.map (fun e => e.files))
        (inp.experiments.map (fun e => e.accession))
        inp.custom_crop_lengths inp.force_ses)
  let cg : CtlGlobals :=
      ⟨inp.files, inp.wildtype_ctl_ids, inp.use_custom_crop_length_flag, inp.linkPre⟩
  let cRows := zipCtlRows (inp.experiments.map (fun e => e.possible_controls))
      (inp.experiments.map (fun e => e.accession)) pc.ptypes eOut.runTypes
      (inp.experiments.map (fun e => e.replicates)) eOut.minRLs
      inp.multiple_controls inp.force_ses
  let cOut ← ctlLoop pick cg cRows
  let frts ← assignColLen n "chip.paired_end" cOut.frts
  let crops ← assignColLen n "chip.crop_length" cOut.crops
  let bams ← assignColLen n "chip.ctl_nodup_bams" cOut.bams
  let aligners ← assignColLen n "chip.aligner" pc.aligners
  let useBwa ← assignColLen n "chip.use_bwa_mem_for_pe" pc.useBwaMem
  let bwaLim ← assignColLen n "chip.bwa_mem_read_len_limit" pc.bwaLimit
  let ptypes ← assignColLen n "chip.pipeline_type" pc.ptypes
  let redact ← assignColLen n "chip.redact_nodup_bam" inp.redacted_flags
  let fqcols ← (List.range' 1 10).mapM (fun k => do
    let a ← assignColLen n ("chip.fastqs_rep" ++ toString k ++ "_R1") (eOut.r1m k)
    let b ← assignColLen n ("chip.fastqs_rep" ++ toString k ++ "_R2") (eOut.r2m k)
    pure (a, b))
  let tc : TableCols := ⟨inp.infile, assayCol, assets, frts, crops, bams,
      aligners, useBwa, bwaLim, ptypes, redact,
      fqcols.map (fun p => p.1), fqcols.map (fun p => p.2)⟩
  let rows := (List.range n).map (mkRow tc)
  let errNAO := (rows.filter
      (fun r => r.ptype == "control" && r.align_only == false)).map
      (fun r => r.title)
  let kept ← dropStage rows
      (cOut.errCtl ++ eOut.errNoFastqs ++ eOut.errMissingPairs ++
       cOut.errEnded ++ errNAO)
  let recs ← kept.mapM emitRow
  pure ⟨recs, eOut.errNoFastqs, eOut.errMissingPairs, cOut.errCtl,
        cOut.errEnded, errNAO⟩

/-! ## Concrete metadata batches used to instantiate the theorems -/

/-- Read 1 fastq of experiment EXP1. -/
def fEx1 : FileRecord :=
  { atId := "/files/E1/", link := "/f/e1.fastq.gz",
    dataset := "/experiments/EXP1/", file_format := "fastq",
    biorep_scalar := 1, paired_end := some "1",
    paired_with := some "/files/E2/", run_type := some "paired-ended",
    mapped_run_type := none, read_length := 100,
    cropped_read_length := none, cropped_read_length_tolerance := none,
    status := "released", replicate_status := "released" }

/-- Read 2 fastq of experiment EXP1 (mate of `fEx1`). -/
def fEx2 : FileRecord :=
  { fEx1 with
    atId := "/files/E2/"
    link := "/f/e2.fastq.gz"
    paired_end := some "2"
    paired_with := none }

/-- Fastq of control CTL1. -/
def fCtlFq : FileRecord :=
  { atId := "/files/C1/", link := "/f/c1.fastq.gz",
    dataset := "/experiments/CTL1/", file_format := "fastq",
    biorep_scalar := 1, paired_end := some "1", paired_with := none,
    run_type := some "paired-ended", mapped_run_type := none,
    read_length := 100, cropped_read_length := none,
    cropped_read_length_tolerance := none,
    status := "released", replicate_status := "released" }

/-- Alignment bam of control CTL1, cropped at 100 bp with tolerance 2. -/
def fCtlBam : FileRecord :=
  { atId := "/files/CB/", link := "/f/cb.bam",
    dataset := "/experiments/CTL1/", file_format := "bam",
    biorep_scalar := 1, paired_end := none, paired_with := none,
    run_type := none, mapped_run_type := some "paired-ended",
    read_length := 0, cropped_read_length := some 100,
    cropped_read_length_tolerance := some 2,
    status := "released", replicate_status := "released" }

/-- A paired-end TF ChIP experiment with one possible control. -/
def expGood : ExperimentRecord :=
  { accession := "EXP1", assay_title := "TF ChIP-seq", control_type := none,
    possible_controls := ["/experiments/CTL1/"],
    replicates := [⟨some ["/targets/T1/"], "Homo sapiens"⟩],
    files := ["/f/e1.fastq.gz", "/f/e2.fastq.gz"] }

/-- A one-experiment batch that resolves without any error. -/
def goodInputs : Inputs :=
  { infile := [⟨"EXP1", false, "m"⟩], experiments := [expGood],
    files := [fEx1, fEx2, fCtlFq, fCtlBam], wildtype_ctl_ids := [],
    use_custom_crop_length_flag := false, custom_crop_lengths := [0],
    force_ses := [false], multiple_controls := [false],
    redacted_flags := [none], linkPre := "" }

/-- Decidable equality of run results. -/
instance {ε α : Type} [DecidableEq ε] [DecidableEq α] : DecidableEq (Except ε α)
  | .ok x, .ok y =>
      if h : x = y then .isTrue (h ▸ rfl)
      else .isFalse (fun c => h (Except.ok.inj c))
  | .error x, .error y =>
      if h : x = y then .isTrue (h ▸ rfl)
      else .isFalse (fun c => h (Except.error.inj c))
  | .ok _, .error _ => .isFalse (fun c => Except.noConfusion c)
  | .error _, .ok _ => .isFalse (fun c => Except.noConfusion c)

/-- Fastq of EXP0 whose statuses make it unusable. -/
def fBad : FileRecord := { fEx1 with
  atId := "/files/B1/"
  link := "/f/b1.fastq.gz"
  dataset := "/experiments/EXP0/"
  status := "revoked"
  paired_with := none }

/-- EXP0: its only file is unusable, so it has no usable fastqs. -/
def expBad : ExperimentRecord := { expGood with
  accession := "EXP0"
  files := ["/f/b1.fastq.gz"] }

/-- A batch whose first experiment has no usable fastqs and whose second
experiment is `expGood`. -/
def badBatch : Inputs := { goodInputs with
  infile := [⟨"EXP0", false, "m"⟩, ⟨"EXP1", false, "m"⟩]
  experiments := [expBad, expGood]
  files := [fBad, fEx1, fEx2, fCtlFq, fCtlBam]
  custom_crop_lengths := [0, 0]
  force_ses := [false, false]
  multiple_controls := [false, false]
  redacted_flags := [none, none] }

/-- Control bam of CTL1 cropped at 50 bp. -/
def fCtlBam50 : FileRecord := { fCtlBam with cropped_read_length := some 50 }

/-- The good batch with a custom crop length of 50 supplied. -/
def customInputs : Inputs := { goodInputs with
  files := [fEx1, fEx2, fCtlFq, fCtlBam50]
  use_custom_crop_length_flag := true
  custom_crop_lengths := [50] }

/-- A second fastq of CTL1 with no `run_type` metadata. -/
def fCtlFq2 : FileRecord := { fCtlFq with
  atId := "/files/C2/"
  link := "/f/c2.fastq.gz"
  run_type := none }

/-- The good batch where the control's run-type set is
`{'paired-ended', NaN}`. -/
def mixedRtInputs : Inputs := { goodInputs with
  files := [fEx1, fEx2, fCtlFq, fCtlFq2, fCtlBam] }

/-- The good batch where the control has no fastq files at all. -/
def noCtlFqInputs : Inputs := { goodInputs with
  files := [fEx1, fEx2, fCtlBam] }

/-- Fastq of a second control CTL2. -/
def fCtl2Fq : FileRecord := { fCtlFq with
  atId := "/files/C3/"
  link := "/f/c3.fastq.gz"
  dataset := "/experiments/CTL2/" }

/-- Alignment bam of CTL2. -/
def fCtl2Bam : FileRecord := { fCtlBam with
  atId := "/files/CB2/"
  link := "/f/cb2.bam"
  dataset := "/experiments/CTL2/" }

/-- Globals of the control loop over the two-control file collection. -/
def cgEGFP : CtlGlobals :=
  ⟨[fEx1, fEx2, fCtlFq, fCtlBam, fCtl2Fq, fCtl2Bam], [], false, ""⟩

/-- A tf row with two possible controls and an eGFP antibody target. -/
def rowEGFP : CtlRow :=
  ⟨["/experiments/CTL1/", "/experiments/CTL2/"], "EXP1", "tf", "paired-ended",
   [⟨some ["/targets/eGFP-avictoria/"], "Homo sapiens"⟩], 100, false, false⟩

/-- A TF ChIP experiment whose replicate set mixes two species. -/
def expMixed : ExperimentRecord := { expGood with
  replicates := [⟨some ["/targets/T1/"], "Homo sapiens"⟩,
                 ⟨some ["/targets/T1/"], "Mus musculus"⟩] }

/-- The good batch with the mixed-species experiment. -/
def mixedSpecies : Inputs := { goodInputs with experiments := [expMixed] }

/-- The two-control globals with CTL2 registered as a wildtype control. -/
def cgWt : CtlGlobals := { cgEGFP with wildtype := ["/experiments/CTL2/"] }

/-- The control-loop row of `expGood` in `goodInputs`. -/
def rowGood : CtlRow :=
  ⟨["/experiments/CTL1/"], "EXP1", "tf", "paired-ended",
   [⟨some ["/targets/T1/"], "Homo sapiens"⟩], 100, false, false⟩

/-- Globals in which control CTL1 has a bam but no fastq files. -/
def cgNoFq : CtlGlobals := ⟨[fEx1, fEx2, fCtlBam], [], false, ""⟩

/-- The populated (R1, R2) pairs of slots 1..10, in slot order. -/
def popPairs (s : Slots) : List (List String × List String) :=
  ((List.range' 1 10).map (fun k => (s.r1 k, s.r2 k))).filter
    (fun p => !p.1.isEmpty)

/-- A slot state with populated slots 2 and 5 (gaps before and between). -/
def slotsW : Slots :=
  ⟨fun j => if j = 2 then ["a"] else if j = 5 then ["c"] else [],
   fun j => if j = 2 then ["b"] else []⟩

/-- The per-row result of `controlStep` in the non-crashing cases (the
`try:` body's value, or the `except Warning:` bookkeeping). -/
def stepCore (pick : Pick) (g : CtlGlobals) (row : CtlRow) : RowCore :=
  match controlBody pick g row with
  | .ok core => core
  | .error (.warn te) =>
      ⟨none, none, none, [row.acc], if te then [row.acc] else [], [], none, none⟩
  | .error (.crash _) => ⟨none, none, none, [], [], [], none, none⟩

/-- A control-loop row whose `possible_controls` list is empty. -/
def rowNoCtl : CtlRow :=
  ⟨[], "EXP0", "tf", "paired-ended",
   [⟨some ["/targets/T1/"], "Homo sapiens"⟩], 100, false, false⟩

/-- The control-loop globals of `goodInputs`. -/
def cgGood : CtlGlobals := ⟨[fEx1, fEx2, fCtlFq, fCtlBam], [], false, ""⟩

/-- Extract the success value of an experiment-loop run. -/
def getOkExp : Except Crash ExpState → ExpState
  | .ok o => o
  | .error _ => emptyExpState

/-- Extract the success value of a control-loop body. -/
def getOkBody : Except CtlExc RowCore → RowCore
  | .ok c => c
  | .error _ => ⟨none, none, none, [], [], [], none, none⟩

/-- The experiment-loop context of `customInputs`. -/
def gCustom : ExpCtx := ⟨[fEx1, fEx2, fCtlFq, fCtlBam50], "", true⟩

/-- The experiment-loop rows of `customInputs` (override crop 50). -/
def rowsCustom : List ExpRow := [⟨expGood.files, "EXP1", 50, false⟩]

/-- The control-loop globals of `customInputs`. -/
def cgCustom : CtlGlobals := ⟨[fEx1, fEx2, fCtlFq, fCtlBam50], [], true, ""⟩

/-- The control-loop row of `customInputs` (experiment read length = the
override 50, though every fastq is 100 bp long). -/
def rowCustom : CtlRow :=
  ⟨["/experiments/CTL1/"], "EXP1", "tf", "paired-ended",
   [⟨some ["/targets/T1/"], "Homo sapiens"⟩], 50, false, false⟩

/-- Extract the success value of a whole run. -/
def getOkSynth : Except Crash SynthOut → SynthOut
  | .ok o => o
  | .error _ => ⟨[], [], [], [], [], []⟩

/-- Single-ended fastq of the control experiment CTL0. -/
def fC0 : FileRecord :=
  { atId := "/files/C0/", link := "/f/c0.fastq.gz",
    dataset := "/experiments/CTL0/", file_format := "fastq",
    biorep_scalar := 1, paired_end := none, paired_with := none,
    run_type := some "single-ended", mapped_run_type := none,
    read_length := 36, cropped_read_length := none,
    cropped_read_length_tolerance := none,
    status := "released", replicate_status := "released" }

/-- A control-pipeline experiment (align-only). -/
def expCtl : ExperimentRecord :=
  { accession := "CTL0", assay_title := "Control ChIP-seq",
    control_type := some "control", possible_controls := [],
    replicates := [⟨some [], "Homo sapiens"⟩],
    files := ["/f/c0.fastq.gz"] }

/-- A batch with one control experiment and one non-control experiment,
both emitted. -/
def ctlBatch : Inputs :=
  { infile := [⟨"CTL0", true, "m"⟩, ⟨"EXP1", false, "m"⟩],
    experiments := [expCtl, expGood],
    files := [fC0, fEx1, fEx2, fCtlFq, fCtlBam], wildtype_ctl_ids := [],
    use_custom_crop_length_flag := false, custom_crop_lengths := [0, 0],
    force_ses := [false, false], multiple_controls := [false, false],
    redacted_flags := [none, none], linkPre := "" }

/-- A present run-type label: the labels whose handling does not depend on
the set-iteration order. -/
def GoodRT (x : Option String) : Prop :=
  x = some "single-ended" ∨ x = some "paired-ended"

/-! ## Theorems -/
/-- The first index in `[lo, lo+len)` satisfying `p`, if any, satisfies `p`
and everything before it does not. -/
theorem find_range'_min (p : Nat → Bool) :
    ∀ (len lo i0 : Nat), (List.range' lo len).find? p = some i0 →
      lo ≤ i0 ∧ i0 < lo + len ∧ p i0 = true ∧ ∀ x, lo ≤ x → x < i0 → p x = false := by
  intro len
  induction len with
  | zero => intro lo i0 h; simp at h
  | succ n ih =>
    intro lo i0 h
    rw [List.range'_succ] at h
    by_cases hp : p lo
    · rw [List.find?_cons_of_pos _ hp] at h
      obtain rfl : lo = i0 := by injection h
      exact ⟨Nat.le_refl _, by omega, hp, fun x hx1 hx2 => absurd hx1 (by omega)⟩
    · rw [List.find?_cons_of_neg _ hp] at h
      obtain ⟨h1, h2, h3, h4⟩ := ih (lo + 1) i0 h
      refine ⟨by omega, by omega, h3, fun x hx1 hx2 => ?_⟩
      rcases Nat.eq_or_lt_of_le hx1 with rfl | hlt
      · exact Bool.of_not_eq_true hp
      · exact h4 x hlt hx2

theorem firstPopFrom_spec (r1 : Nat → List String) (k i0 : Nat)
    (h : firstPopFrom r1 k = some i0) :
    k ≤ i0 ∧ i0 ≤ 10 ∧ r1 i0 ≠ [] ∧ ∀ x, k ≤ x → x < i0 → r1 x = [] := by
  unfold firstPopFrom at h
  obtain ⟨h1, h2, h3, h4⟩ := find_range'_min _ _ _ _ h
  have hk : k ≤ 10 := by
    by_contra hgt
    have : 11 - k = 0 := by omega
    rw [this] at h2; omega
  refine ⟨h1, by omega, ?_, fun x hx1 hx2 => ?_⟩
  · intro he
    rw [he] at h3; simp at h3
  · have := h4 x hx1 hx2
    simpa using this

theorem firstPopFrom_none_spec (r1 : Nat → List String) (k : Nat)
    (h : firstPopFrom r1 k = none) :
    ∀ x, k ≤ x → x ≤ 10 → r1 x = [] := by
  intro x hx1 hx2
  have hm : x ∈ List.range' k (11 - k) := by
    rw [List.mem_range']
    exact ⟨x - k, by omega, by omega⟩
  have := List.find?_eq_none.mp h x hm
  simpa using this

/-- Invariant of the gap-squeeze loop: after the iterations for slots
`1..m`, an empty slot at or below `m` has nothing populated after it. -/
theorem fixOrdering_inv (s : Slots) :
    ∀ m, m ≤ 10 →
      ∀ j, 1 ≤ j → j ≤ m → ((List.range' 1 m).foldl fixStep s).r1 j = [] →
        ∀ i, j ≤ i → i ≤ 10 → ((List.range' 1 m).foldl fixStep s).r1 i = [] := by
  intro m
  induction m with
  | zero => intro _ j h1 h2; omega
  | succ n ih =>
    intro hm j hj1 hj2 hempty i hi1 hi2
    rw [List.range'_1_concat, List.foldl_append] at hempty ⊢
    simp only [List.foldl_cons, List.foldl_nil] at hempty ⊢
    set t := (List.range' 1 n).foldl fixStep s with ht
    have ihn := ih (by omega)
    by_cases hne : (t.r1 (1 + n)).isEmpty
    · cases hfp : firstPopFrom t.r1 (1 + n + 1) with
      | none =>
        have hstep : fixStep t (1 + n) = t := by
          unfold fixStep; rw [if_pos hne, hfp]
        rw [hstep] at hempty ⊢
        have hall : ∀ x, 1 + n ≤ x → x ≤ 10 → t.r1 x = [] := by
          intro x hx1 hx2
          rcases Nat.eq_or_lt_of_le hx1 with rfl | hlt
          · exact List.isEmpty_iff.mp hne
          · exact firstPopFrom_none_spec t.r1 (1 + n + 1) hfp x (by omega) hx2
        by_cases hcase : j ≤ n
        · exact ihn j hj1 hcase hempty i hi1 hi2
        · have : j = 1 + n := by omega
          subst this
          exact hall i hi1 hi2
      | some i0 =>
        obtain ⟨hs1, hs2, hs3, _⟩ := firstPopFrom_spec t.r1 (1 + n + 1) i0 hfp
        have hstep : fixStep t (1 + n) =
            ⟨updFn (updFn t.r1 (1 + n) (t.r1 i0)) i0 [],
             updFn (updFn t.r2 (1 + n) (t.r2 i0)) i0 []⟩ := by
          unfold fixStep; rw [if_pos hne, hfp]
        rw [hstep] at hempty ⊢
        simp only [updFn] at hempty ⊢
        by_cases hcase : j ≤ n
        · -- an empty slot at or below n would force slot i0 empty: contradiction
          have hji0 : ¬ (j = i0) := by omega
          have hjn : ¬ (j = 1 + n) := by omega
          rw [if_neg hji0, if_neg hjn] at hempty
          have := ihn j hj1 hcase hempty i0 (by omega) (by omega)
          exact absurd this hs3
        · have : j = 1 + n := by omega
          subst this
          have hji0 : ¬ (1 + n = i0) := by omega
          rw [if_neg hji0, if_pos rfl] at hempty
          exact absurd hempty hs3
    · have hstep : fixStep t (1 + n) = t := by
        unfold fixStep; rw [if_neg hne]
      rw [hstep] at hempty ⊢
      by_cases hcase : j ≤ n
      · exact ihn j hj1 hcase hempty i hi1 hi2
      · have : j = 1 + n := by omega
        subst this
        exact absurd (List.isEmpty_iff.mpr hempty) hne
theorem range'_split (s m n : Nat) :
    List.range' s (n + m) = List.range' s m ++ List.range' (s + m) n :=
  (List.range'_append_1 s m n).symm

/-- One gap-squeeze iteration never changes the populated pairs. -/
theorem fixStep_popPairs (s : Slots) (k : Nat) (hk1 : 1 ≤ k) (hk2 : k ≤ 10) :
    popPairs (fixStep s k) = popPairs s := by
  unfold fixStep
  by_cases hne : (s.r1 k).isEmpty
  · rw [if_pos hne]
    cases hfp : firstPopFrom s.r1 (k + 1) with
    | none => rfl
    | some i0 =>
      obtain ⟨hs1, hs2, hs3, hs4⟩ := firstPopFrom_spec s.r1 (k + 1) i0 hfp
      have hki0 : k < i0 := by omega
      have hrk : s.r1 k = [] := List.isEmpty_iff.mp hne
      -- split slots 1..10 into [1..k-1], [k..i0], [i0+1..10]
      have hlen : (10 : Nat) = ((10 - i0) + (i0 - k + 1)) + (k - 1) := by omega
      have hsplit : List.range' 1 10 =
          List.range' 1 (k - 1) ++ List.range' k (i0 - k + 1) ++
          List.range' (i0 + 1) (10 - i0) := by
        nth_rewrite 1 [hlen]
        rw [range'_split, range'_split]
        have e1 : 1 + (k - 1) = k := by omega
        have e2 : k + (i0 - k + 1) = i0 + 1 := by omega
        rw [e1, e2, List.append_assoc]
      set g' : Nat → List String × List String := fun j =>
        ((updFn (updFn s.r1 k (s.r1 i0)) i0 []) j,
         (updFn (updFn s.r2 k (s.r2 i0)) i0 []) j) with hg'
      have hg'eq : ∀ j, j ≠ k → j ≠ i0 → g' j = (s.r1 j, s.r2 j) := by
        intro j h1 h2
        simp only [hg', updFn, if_neg h2, if_neg h1]
      show (((List.range' 1 10).map g').filter (fun p => !p.1.isEmpty)) = _
      unfold popPairs
      rw [hsplit]
      simp only [List.map_append, List.filter_append]
      have hA : (List.range' 1 (k - 1)).map g' =
          (List.range' 1 (k - 1)).map (fun j => (s.r1 j, s.r2 j)) := by
        apply List.map_congr_left
        intro j hj
        rw [List.mem_range'] at hj
        obtain ⟨c, hc, rfl⟩ := hj
        exact hg'eq _ (by omega) (by omega)
      have hB : (List.range' (i0 + 1) (10 - i0)).map g' =
          (List.range' (i0 + 1) (10 - i0)).map (fun j => (s.r1 j, s.r2 j)) := by
        apply List.map_congr_left
        intro j hj
        rw [List.mem_range'] at hj
        obtain ⟨c, hc, rfl⟩ := hj
        exact hg'eq _ (by omega) (by omega)
      rw [hA, hB]
      -- the middle segment [k..i0]
      have hM : List.range' k (i0 - k + 1) =
          k :: (List.range' (k + 1) (i0 - k - 1) ++ [i0]) := by
        rw [List.range'_succ]
        congr 1
        have e3 : i0 - k = (i0 - k - 1) + 1 := by omega
        rw [e3, List.range'_1_concat]
        congr 2
        omega
      have hmidg' : ((List.range' (k + 1) (i0 - k - 1)).map g').filter
          (fun p => !p.1.isEmpty) = [] := by
        rw [List.filter_eq_nil_iff]
        intro a ha
        rw [List.mem_map] at ha
        obtain ⟨j, hj, rfl⟩ := ha
        rw [List.mem_range'] at hj
        obtain ⟨c, hc, rfl⟩ := hj
        rw [hg'eq _ (by omega) (by omega)]
        simp [hs4 (k + 1 + c) (by omega) (by omega)]
      have hmidg : ((List.range' (k + 1) (i0 - k - 1)).map
          (fun j => (s.r1 j, s.r2 j))).filter (fun p => !p.1.isEmpty) = [] := by
        rw [List.filter_eq_nil_iff]
        intro a ha
        rw [List.mem_map] at ha
        obtain ⟨j, hj, rfl⟩ := ha
        rw [List.mem_range'] at hj
        obtain ⟨c, hc, rfl⟩ := hj
        simp [hs4 (k + 1 + c) (by omega) (by omega)]
      have hki0' : ¬ k = i0 := by omega
      have hg'k : g' k = (s.r1 i0, s.r2 i0) := by
        simp [hg', updFn, hki0']
      have hg'i0 : g' i0 = ([], []) := by
        simp [hg', updFn]
      rw [hM]
      simp only [List.map_cons, List.map_append, List.filter_cons,
        List.filter_append, List.map_nil, List.filter_nil,
        hg'k, hg'i0, hmidg', hmidg, hrk]
      simp [hs3]
  · rw [if_neg hne]

/-- The whole gap-squeeze loop never changes the populated pairs. -/
theorem fixOrdering_popPairs (s : Slots) : popPairs (fixOrdering s) = popPairs s := by
  unfold fixOrdering
  have : ∀ (l : List Nat) (t : Slots), (∀ k ∈ l, 1 ≤ k ∧ k ≤ 10) →
      popPairs (l.foldl fixStep t) = popPairs t := by
    intro l
    induction l with
    | nil => intro t _; rfl
    | cons a as ih =>
      intro t hmem
      rw [List.foldl_cons]
      rw [ih _ (fun k hk => hmem k (List.mem_cons_of_mem a hk))]
      exact fixStep_popPairs t a (hmem a (List.mem_cons_self a as)).1
        (hmem a (List.mem_cons_self a as)).2
  apply this
  intro k hk
  rw [List.mem_range'] at hk
  omega

/-- C3: for every experiment state with at least one populated replicate
slot, the source's slot compaction (`fixOrdering`, lines 444-455) leaves
no populated R1 slot after an empty one in slots 1..10, and preserves the
ordered sequence of populated (R1, R2) slot pairs - so relative replicate
order is kept and each slot's R2 list moves together with its R1 list. -/
theorem c3_compaction_no_gaps_and_order (s : Slots)
    (hpop : ∃ k ∈ List.range' 1 10, s.r1 k ≠ []) :
    (∀ j k, 1 ≤ j → j < k → k ≤ 10 →
      (fixOrdering s).r1 j = [] → (fixOrdering s).r1 k = []) ∧
    popPairs (fixOrdering s) = popPairs s := by
  refine ⟨?_, fixOrdering_popPairs s⟩
  intro j k hj hjk hk he
  exact fixOrdering_inv s 10 (Nat.le_refl 10) j hj (by omega) he k (by omega) hk

/-- Witness for C3 at a concrete slot state with gaps. -/
theorem c3_compaction_no_gaps_and_order_witness :
    (∃ k ∈ List.range' 1 10, slotsW.r1 k ≠ []) ∧
    ((∀ j k, 1 ≤ j → j < k → k ≤ 10 →
      (fixOrdering slotsW).r1 j = [] → (fixOrdering slotsW).r1 k = []) ∧
     popPairs (fixOrdering slotsW) = popPairs slotsW) :=
  ⟨by decide, c3_compaction_no_gaps_and_order slotsW (by decide)⟩

/-- C7: evaluation of the multi-control eGFP narrowing.  First conjunct:
with CTL2 in the wildtype set, the tf row with two possible controls and
antibody-target union exactly eGFP narrows to CTL2 alone and raises no
error.  Second conjunct (the failing input): with an empty wildtype set
the source does not fail with the wildtype error - the dead
`len(controls) == 0` guard never fires - and instead resolves the
experiment with both controls, returning their bams without any tag. -/
theorem c7_wildtype_narrowing_eval :
    controlStep defaultPick cgWt rowEGFP =
      .ok ⟨some [some "/f/cb2.bam"], some true, some 100, [], [],
           ["/experiments/CTL2/"], some "paired-ended", some 100⟩ ∧
    controlStep defaultPick cgEGFP rowEGFP =
      .ok ⟨some [some "/f/cb.bam", some "/f/cb2.bam"], some true, some 100,
           [], [], ["/experiments/CTL1/", "/experiments/CTL2/"],
           some "paired-ended", some 100⟩ :=
  ⟨rfl, rfl⟩

/-- C1 counterexample: in `badBatch` the first experiment merely has no
usable fastqs, an error the spec classifies as per-experiment
(`NoUsableFastqs`), yet the whole run aborts with the uncaught
`ValueError` of `min([])` (line 465) and the second, fully valid
experiment is never emitted - the same second experiment alone
(`goodInputs`) succeeds. -/
theorem c1_batch_abort_counterexample :
    synthesize defaultPick badBatch = .error .valueError ∧
    (synthesize defaultPick goodInputs).isOk = true :=
  ⟨rfl, rfl⟩

/-- C4 counterexample: for a non-control row with a non-empty chosen
control set whose controls have no fastq files, the combined-endedness
code is in the claim's "every other case" (nothing is single-ended, the
run-type sets do not reduce to paired-ended), yet instead of tagging
`IndeterminateEndedness` the run aborts with the uncaught `StopIteration`
of `next(iter(set()))` (line 538). -/
theorem c4_empty_run_type_counterexample :
    controlStep defaultPick cgNoFq rowGood = .error .stopIteration :=
  rfl

/-- C8 counterexample: a mixed-species replicate set is not a classified
per-experiment failure; the asset fold appends nothing for the
experiment, so attaching the blacklist column aborts the whole run with a
length mismatch (pandas `ValueError` at line 329). -/
theorem c8_mixed_species_counterexample :
    synthesize defaultPick mixedSpecies = .error (.lengthMismatch "chip.blacklist") :=
  rfl

/-- C9 counterexample: on `mixedRtInputs` the control's run-type set is
two-valued (`{'paired-ended', NaN}`), and two runs that only differ in
CPython's set-iteration order produce different outputs: one emits the
experiment as paired-ended, the other tags it `IndeterminateEndedness`
and drops it. -/
theorem c9_iteration_order_counterexample :
    synthesize defaultPick mixedRtInputs ≠ synthesize lastPick mixedRtInputs := by
  decide
theorem controlStep_eq_stepCore (pick : Pick) (g : CtlGlobals) (row : CtlRow)
    (h : (controlStep pick g row).isOk) :
    controlStep pick g row = .ok (stepCore pick g row) := by
  unfold controlStep stepCore
  cases hb : controlBody pick g row with
  | ok core => rfl
  | error e =>
    cases e with
    | warn te => rfl
    | crash c =>
      unfold controlStep at h
      rw [hb] at h
      simp [Except.isOk, Except.toBool] at h

/-- When no row crashes, the control loop succeeds and its outputs are the
per-row results appended in row order. -/
theorem ctlLoop_all_ok (pick : Pick) (g : CtlGlobals) (rows : List CtlRow)
    (h : ∀ row ∈ rows, (controlStep pick g row).isOk) :
    ctlLoop pick g rows = .ok
      ⟨rows.map (fun r => (stepCore pick g r).bams),
       rows.map (fun r => (stepCore pick g r).frtB),
       rows.map (fun r => (stepCore pick g r).crop),
       (rows.map (fun r => (stepCore pick g r).errCtl)).flatten,
       (rows.map (fun r => (stepCore pick g r).errEnded)).flatten⟩ := by
  unfold ctlLoop
  have aux : ∀ (rs : List CtlRow) (acc : CtlOuts),
      (∀ row ∈ rs, (controlStep pick g row).isOk) →
      List.foldlM (fun a r => (controlStep pick g r).map (ctlAppend a)) acc rs = .ok
        ⟨acc.bams ++ rs.map (fun r => (stepCore pick g r).bams),
         acc.frts ++ rs.map (fun r => (stepCore pick g r).frtB),
         acc.crops ++ rs.map (fun r => (stepCore pick g r).crop),
         acc.errCtl ++ (rs.map (fun r => (stepCore pick g r).errCtl)).flatten,
         acc.errEnded ++ (rs.map (fun r => (stepCore pick g r).errEnded)).flatten⟩ := by
    intro rs
    induction rs with
    | nil =>
      intro acc _
      simp only [List.foldlM_nil, List.map_nil, List.flatten_nil, List.append_nil]
      rfl
    | cons r rs ih =>
      intro acc hall
      rw [List.foldlM_cons, controlStep_eq_stepCore pick g r
        (hall r (List.mem_cons_self r rs))]
      show List.foldlM (fun a r => Except.map (ctlAppend a) (controlStep pick g r))
          (ctlAppend acc (stepCore pick g r)) rs = _
      rw [ih _ (fun row hm => hall row (List.mem_cons_of_mem r hm))]
      simp [ctlAppend, List.append_assoc]
  have := aux rows emptyCtlOuts h
  simpa [emptyCtlOuts] using this

/-- C1 (amended): a `Warning`-class failure while resolving one experiment
attaches that experiment's error tags, substitutes placeholder outputs for
it, and halts only its own resolution: whenever no row raises an uncaught
exception, the control loop succeeds with exactly one output per row and
the concatenated per-row tags.  (Uncaught exceptions - `min([])` on an
experiment without usable fastqs, `next(iter(set()))` on an empty run-type
set - do abort the whole batch, per the counterexample.) -/
theorem c1_warning_containment (pick : Pick) (g : CtlGlobals)
    (rows : List CtlRow) (h : ∀ row ∈ rows, (controlStep pick g row).isOk) :
    ctlLoop pick g rows = .ok
      ⟨rows.map (fun r => (stepCore pick g r).bams),
       rows.map (fun r => (stepCore pick g r).frtB),
       rows.map (fun r => (stepCore pick g r).crop),
       (rows.map (fun r => (stepCore pick g r).errCtl)).flatten,
       (rows.map (fun r => (stepCore pick g r).errEnded)).flatten⟩ ∧
    (∀ row ∈ rows, ∀ te, controlBody pick g row = .error (.warn te) →
      controlStep pick g row = .ok
        ⟨none, none, none, [row.acc], if te then [row.acc] else [],
         [], none, none⟩) := by
  refine ⟨ctlLoop_all_ok pick g rows h, ?_⟩
  intro row _ te hb
  unfold controlStep
  rw [hb]

/-- Witness for C1 (amended): a batch of one warning row (empty
`possible_controls`) and one clean row; the warning row is tagged and the
clean row is still processed. -/
theorem c1_warning_containment_witness :
    (∀ row ∈ [rowNoCtl, rowGood], (controlStep defaultPick cgGood row).isOk) ∧
    (ctlLoop defaultPick cgGood [rowNoCtl, rowGood] = .ok
      ⟨[rowNoCtl, rowGood].map (fun r => (stepCore defaultPick cgGood r).bams),
       [rowNoCtl, rowGood].map (fun r => (stepCore defaultPick cgGood r).frtB),
       [rowNoCtl, rowGood].map (fun r => (stepCore defaultPick cgGood r).crop),
       ([rowNoCtl, rowGood].map
         (fun r => (stepCore defaultPick cgGood r).errCtl)).flatten,
       ([rowNoCtl, rowGood].map
         (fun r => (stepCore defaultPick cgGood r).errEnded)).flatten⟩ ∧
     (∀ row ∈ [rowNoCtl, rowGood], ∀ te,
        controlBody defaultPick cgGood row = .error (.warn te) →
        controlStep defaultPick cgGood row = .ok
          ⟨none, none, none, [row.acc], if te then [row.acc] else [],
           [], none, none⟩)) :=
  ⟨by decide,
   c1_warning_containment defaultPick cgGood [rowNoCtl, rowGood] (by decide)⟩
theorem validPick_defaultPick : ValidPick defaultPick := by
  constructor
  · intro l x h
    cases l with
    | nil => simp [defaultPick] at h
    | cons a t =>
      simp [defaultPick] at h
      rw [← h]
      exact List.mem_cons_self a t
  · intro l hne
    rw [defaultPick, List.head?_isSome]
    exact hne

theorem validPick_lastPick : ValidPick lastPick := by
  constructor
  · intro l x h
    exact List.mem_of_getLast?_eq_some h
  · intro l hne
    rw [lastPick, List.getLast?_isSome]
    exact hne

/-- C4 (amended): with a non-empty collected control run-type label set,
the combined endedness is single-ended whenever any control label or the
experiment is single-ended or the force-single-end flag is set; it is
paired-ended whenever no single-ended signal exists and all control
labels and the experiment are paired-ended; it is the
IndeterminateEndedness failure whenever no single-ended signal exists and
either the experiment is not paired-ended or no control label is
paired-ended; and that failure makes `controlStep` tag the experiment in
both `ERROR_not_matching_endedness` and `ERROR_control_error_detected`
with placeholder outputs.  (With an empty label set the run aborts
instead, per the counterexample; a label set mixing paired-ended with
missing labels is decided by the set-iteration order.) -/
theorem c4_combined_endedness (pick : Pick) (crt : List (Option String))
    (ert : String) (mapSE : Bool) (hv : ValidPick pick) (hne : crt ≠ []) :
    ((some "single-ended" ∈ crt ∨ ert = "single-ended" ∨ mapSE = true) →
      combinedEndedness pick crt ert mapSE = .ok (some false)) ∧
    ((some "single-ended" ∉ crt ∧ ert ≠ "single-ended" ∧ mapSE = false ∧
      (∀ x ∈ crt, x = some "paired-ended") ∧ ert = "paired-ended") →
      combinedEndedness pick crt ert mapSE = .ok (some true)) ∧
    ((some "single-ended" ∉ crt ∧ ert ≠ "single-ended" ∧ mapSE = false ∧
      (ert ≠ "paired-ended" ∨ ∀ x ∈ crt, x ≠ some "paired-ended")) →
      combinedEndedness pick crt ert mapSE = .ok none) ∧
    (∀ (g : CtlGlobals) (row : CtlRow) (ctls : List String),
      row.ptype ≠ "control" → row.controls ≠ [] →
      narrowControls g row = .ok ctls →
      combinedEndedness pick (ctlRunTypes g.files ctls) row.ert row.mapSE = .ok none →
      controlStep pick g row = .ok
        ⟨none, none, none, [row.acc], [row.acc], [], none, none⟩) := by
  refine ⟨?_, ?_, ?_, ?_⟩
  · intro hc
    unfold combinedEndedness
    rw [if_pos hc]
  · rintro ⟨h1, h2, h3, h4, h5⟩
    unfold combinedEndedness
    rw [if_neg (by simp [h1, h2, h3]), if_neg hne, if_pos ?_]
    constructor
    · cases hp : pick crt with
      | none =>
        have := hv.2 crt hne
        rw [hp] at this
        simp at this
      | some x =>
        have hm := hv.1 crt x hp
        rw [h4 x hm]
    · exact h5
  · rintro ⟨h1, h2, h3, h4⟩
    unfold combinedEndedness
    rw [if_neg (by simp [h1, h2, h3]), if_neg hne, if_neg ?_]
    rintro ⟨hp, he⟩
    rcases h4 with h4 | h4
    · exact h4 he
    · have hm := hv.1 crt (some "paired-ended") hp
      exact h4 _ hm rfl
  · intro g row ctls hpt hctl hnarrow hend
    have hbody : controlBody pick g row = .error (.warn true) := by
      unfold controlBody
      rw [if_neg hpt, if_neg hctl, hnarrow]
      simp only [bind, Except.bind, hend]
    unfold controlStep
    rw [hbody]
    rfl

/-- Witness for C4 (amended) at the singleton paired-ended label set. -/
theorem c4_combined_endedness_witness :
    ValidPick defaultPick ∧ ([some "paired-ended"] : List (Option String)) ≠ [] ∧
    (((some "single-ended" ∈ ([some "paired-ended"] : List (Option String)) ∨
       "paired-ended" = "single-ended" ∨ false = true) →
      combinedEndedness defaultPick [some "paired-ended"] "paired-ended" false =
        .ok (some false)) ∧
     ((some "single-ended" ∉ ([some "paired-ended"] : List (Option String)) ∧
       "paired-ended" ≠ "single-ended" ∧ false = false ∧
       (∀ x ∈ ([some "paired-ended"] : List (Option String)),
         x = some "paired-ended") ∧ "paired-ended" = "paired-ended") →
      combinedEndedness defaultPick [some "paired-ended"] "paired-ended" false =
        .ok (some true)) ∧
     ((some "single-ended" ∉ ([some "paired-ended"] : List (Option String)) ∧
       "paired-ended" ≠ "single-ended" ∧ false = false ∧
       ("paired-ended" ≠ "paired-ended" ∨
        ∀ x ∈ ([some "paired-ended"] : List (Option String)),
          x ≠ some "paired-ended")) →
      combinedEndedness defaultPick [some "paired-ended"] "paired-ended" false =
        .ok none) ∧
     (∀ (g : CtlGlobals) (row : CtlRow) (ctls : List String),
       row.ptype ≠ "control" → row.controls ≠ [] →
       narrowControls g row = .ok ctls →
       combinedEndedness defaultPick (ctlRunTypes g.files ctls) row.ert
         row.mapSE = .ok none →
       controlStep defaultPick g row = .ok
         ⟨none, none, none, [row.acc], [row.acc], [], none, none⟩)) :=
  ⟨validPick_defaultPick, by decide,
   c4_combined_endedness defaultPick [some "paired-ended"] "paired-ended" false
     validPick_defaultPick (by decide)⟩
theorem processExperimentRow_custom_minRL (g : ExpCtx) (pick : Pick)
    (s : ExpState) (row : ExpRow) (s' : ExpState) (huse : g.useCustom = true)
    (h : processExperimentRow g pick s row = .ok s') :
    s'.minRLs = s.minRLs ++ [row.ccl] := by
  unfold processExperimentRow at h
  rw [huse] at h
  simp only [if_true] at h
  cases hrt : expRunType pick
      (row.efiles.foldl (processFile g row.acc row.mapSE)
        ⟨emptySlots, [], [], []⟩).rts with
  | error c =>
    rw [hrt] at h
    simp [bind, Except.bind] at h
  | ok rt =>
    rw [hrt] at h
    simp only [bind, Except.bind] at h
    obtain rfl := Except.ok.inj h.symm
    rfl

/-- With the custom-crop flag set, the experiment loop records exactly the
caller-supplied crop lengths as the per-experiment minimum read lengths. -/
theorem expLoop_custom_minRLs (g : ExpCtx) (pick : Pick) (rows : List ExpRow)
    (out : ExpState) (huse : g.useCustom = true)
    (h : expLoop g pick rows = .ok out) :
    out.minRLs = rows.map (fun r => r.ccl) := by
  unfold expLoop at h
  have aux : ∀ (rs : List ExpRow) (s : ExpState) (o : ExpState),
      List.foldlM (processExperimentRow g pick) s rs = .ok o →
      o.minRLs = s.minRLs ++ rs.map (fun r => r.ccl) := by
    intro rs
    induction rs with
    | nil =>
      intro s o h0
      obtain rfl := Except.ok.inj h0
      simp
    | cons r rs ih =>
      intro s o h0
      rw [List.foldlM_cons] at h0
      cases hstep : processExperimentRow g pick s r with
      | error c =>
        rw [hstep] at h0
        simp [bind, Except.bind] at h0
      | ok s1 =>
        rw [hstep] at h0
        have h1 : List.foldlM (processExperimentRow g pick) s1 rs = .ok o := h0
        rw [ih s1 o h1,
          processExperimentRow_custom_minRL g pick s r s1 huse hstep]
        simp
  have := aux rows emptyExpState out h
  simpa [emptyExpState] using this
/-- For a non-control row resolved with the custom-crop flag set, the
assigned crop is the row's experiment read length (the override), while
the bam search window center is the min over the override and all control
read lengths. -/
theorem controlBody_custom_crop (pick : Pick) (g : CtlGlobals) (row : CtlRow)
    (core : RowCore) (huse : g.useCustom = true)
    (hpt : row.ptype ≠ "control") (h : controlBody pick g row = .ok core) :
    core.crop = some row.expRL ∧
    ∃ b, core.frtB = some b ∧
      core.frtS = some (if b then "paired-ended" else "single-ended") ∧
      core.combined =
        some ((ctlReadLens g.files core.chosen).foldl min row.expRL) ∧
      (core.bams = none ∨
       core.bams = some (bamCollect g
         (if b then "paired-ended" else "single-ended")
         ((ctlReadLens g.files core.chosen).foldl min row.expRL)
         row.acc core.chosen).1) := by
  unfold controlBody at h
  rw [if_neg hpt] at h
  by_cases hc : row.controls = []
  · rw [if_pos hc] at h
    exact absurd h (by simp)
  · rw [if_neg hc] at h
    cases hn : narrowControls g row with
    | error e =>
      rw [hn] at h
      simp [bind, Except.bind] at h
    | ok ctls =>
      rw [hn] at h
      simp only [bind, Except.bind] at h
      cases hend : combinedEndedness pick (ctlRunTypes g.files ctls)
          row.ert row.mapSE with
      | error c =>
        rw [hend] at h
        exact absurd h (by simp)
      | ok ob =>
        cases ob with
        | none =>
          rw [hend] at h
          exact absurd h (by simp)
        | some b =>
          rw [hend] at h
          simp only [huse, if_true] at h
          by_cases h1 : (bamCollect g (if b then "paired-ended" else "single-ended")
              ((ctlReadLens g.files ctls).foldl min row.expRL) row.acc ctls).1 = []
          · rw [if_pos h1] at h
            obtain rfl := Except.ok.inj h
            exact ⟨rfl, b, rfl, rfl, rfl, Or.inl rfl⟩
          · rw [if_neg h1] at h
            by_cases h2 : none ∈ (bamCollect g
                (if b then "paired-ended" else "single-ended")
                ((ctlReadLens g.files ctls).foldl min row.expRL) row.acc ctls).1
            · rw [if_pos h2] at h
              obtain rfl := Except.ok.inj h
              exact ⟨rfl, b, rfl, rfl, rfl, Or.inl rfl⟩
            · rw [if_neg h2] at h
              obtain rfl := Except.ok.inj h
              exact ⟨rfl, b, rfl, rfl, rfl, Or.inr rfl⟩

/-- C5: when the custom crop length override is active, the experiment
loop records the override verbatim as each experiment's minimum read
length (independent of every file's read length), the control loop
assigns exactly that value as the crop length of every row that resolves
without error, and the control-bam search window is still centered at the
combined minimum - the numeric min over the override and all chosen
controls' read lengths. -/
theorem c5_custom_crop_override :
    (∀ (g : ExpCtx) (pick : Pick) (rows : List ExpRow) (out : ExpState),
      g.useCustom = true → expLoop g pick rows = .ok out →
      out.minRLs = rows.map (fun r => r.ccl)) ∧
    (∀ (pick : Pick) (g : CtlGlobals) (row : CtlRow) (core : RowCore),
      g.useCustom = true → row.ptype ≠ "control" →
      controlBody pick g row = .ok core →
      core.crop = some row.expRL ∧
      ∃ b, core.frtB = some b ∧
        core.frtS = some (if b then "paired-ended" else "single-ended") ∧
        core.combined =
          some ((ctlReadLens g.files core.chosen).foldl min row.expRL) ∧
        (core.bams = none ∨
         core.bams = some (bamCollect g
           (if b then "paired-ended" else "single-ended")
           ((ctlReadLens g.files core.chosen).foldl min row.expRL)
           row.acc core.chosen).1)) :=
  ⟨expLoop_custom_minRLs, controlBody_custom_crop⟩

/-- Witness for C5 on `customInputs` (override 50, all fastqs 100 bp). -/
theorem c5_custom_crop_override_witness :
    (gCustom.useCustom = true ∧
     expLoop gCustom defaultPick rowsCustom =
       .ok (getOkExp (expLoop gCustom defaultPick rowsCustom)) ∧
     (getOkExp (expLoop gCustom defaultPick rowsCustom)).minRLs =
       rowsCustom.map (fun r => r.ccl)) ∧
    (cgCustom.useCustom = true ∧ rowCustom.ptype ≠ "control" ∧
     controlBody defaultPick cgCustom rowCustom =
       .ok (getOkBody (controlBody defaultPick cgCustom rowCustom)) ∧
     ((getOkBody (controlBody defaultPick cgCustom rowCustom)).crop =
        some rowCustom.expRL ∧
      ∃ b, (getOkBody (controlBody defaultPick cgCustom rowCustom)).frtB = some b ∧
        (getOkBody (controlBody defaultPick cgCustom rowCustom)).frtS =
          some (if b then "paired-ended" else "single-ended") ∧
        (getOkBody (controlBody defaultPick cgCustom rowCustom)).combined =
          some ((ctlReadLens cgCustom.files
            (getOkBody (controlBody defaultPick cgCustom rowCustom)).chosen).foldl
              min rowCustom.expRL) ∧
        ((getOkBody (controlBody defaultPick cgCustom rowCustom)).bams = none ∨
         (getOkBody (controlBody defaultPick cgCustom rowCustom)).bams =
           some (bamCollect cgCustom
             (if b then "paired-ended" else "single-ended")
             ((ctlReadLens cgCustom.files
               (getOkBody (controlBody defaultPick cgCustom rowCustom)).chosen).foldl
                 min rowCustom.expRL)
             rowCustom.acc
             (getOkBody (controlBody defaultPick cgCustom rowCustom)).chosen).1))) :=
  ⟨⟨rfl, rfl,
    c5_custom_crop_override.1 gCustom defaultPick rowsCustom
      (getOkExp (expLoop gCustom defaultPick rowsCustom)) rfl rfl⟩,
   ⟨rfl, by decide, rfl,
    c5_custom_crop_override.2 defaultPick cgCustom rowCustom
      (getOkBody (controlBody defaultPick cgCustom rowCustom)) rfl (by decide) rfl⟩⟩
theorem bamMatch_spec (combined : Int) (frtStr ctl : String) (rep : Nat)
    (f : FileRecord) (h : bamMatch combined frtStr ctl rep f = true) :
    f.dataset = ctl ∧ f.biorep_scalar = rep ∧ f.file_format = "bam" ∧
    f.mapped_run_type = some frtStr ∧
    ∃ v, f.cropped_read_length = some v ∧ combined - 2 ≤ v ∧ v ≤ combined + 2 := by
  unfold bamMatch at h
  cases hv : f.cropped_read_length with
  | none => rw [hv] at h; simp at h
  | some v =>
    rw [hv] at h
    simp only [Bool.and_eq_true, beq_iff_eq, decide_eq_true_eq] at h
    exact ⟨h.1.1.1.1, h.1.1.1.2, h.1.1.2, h.1.2, v, rfl, h.2.2, h.2.1⟩

theorem bamScanCtl_mem (g : CtlGlobals) (frtStr : String) (combined : Int)
    (ctl : String) (x : Option String)
    (hx : x ∈ (bamScanCtl g frtStr combined ctl).1) :
    ∃ rep ∈ List.range' 1 10, ∃ f,
      bamForRep g.files ctl rep frtStr combined = some f ∧
      x = if f.cropped_read_length_tolerance = some 2
          then some (g.linkPre ++ f.link) else none := by
  unfold bamScanCtl at hx
  have aux : ∀ (reps : List Nat) (st : List (Option String) × Bool),
      x ∈ (reps.foldl (fun st rep =>
        match bamForRep g.files ctl rep frtStr combined with
        | some f =>
            (st.1 ++ [if f.cropped_read_length_tolerance = some 2
                      then some (g.linkPre ++ f.link) else none], true)
        | none => st) st).1 →
      x ∈ st.1 ∨ ∃ rep ∈ reps, ∃ f,
        bamForRep g.files ctl rep frtStr combined = some f ∧
        x = if f.cropped_read_length_tolerance = some 2
            then some (g.linkPre ++ f.link) else none := by
    intro reps
    induction reps with
    | nil => intro st h0; exact Or.inl h0
    | cons rep reps ih =>
      intro st h0
      rw [List.foldl_cons] at h0
      cases hb : bamForRep g.files ctl rep frtStr combined with
      | none =>
        rw [hb] at h0
        rcases ih st h0 with h1 | ⟨r, hr, hf⟩
        · exact Or.inl h1
        · exact Or.inr ⟨r, List.mem_cons_of_mem rep hr, hf⟩
      | some f =>
        rw [hb] at h0
        rcases ih _ h0 with h1 | ⟨r, hr, hf⟩
        · rcases List.mem_append.mp h1 with h2 | h2
          · exact Or.inl h2
          · refine Or.inr ⟨rep, List.mem_cons_self rep reps, f, hb, ?_⟩
            simpa using h2
        · exact Or.inr ⟨r, List.mem_cons_of_mem rep hr, hf⟩
  rcases aux (List.range' 1 10) ([], false) hx with h1 | h1
  · simp at h1
  · exact h1

theorem bamCollect_mem (g : CtlGlobals) (frtStr : String) (combined : Int)
    (acc0 : String) (ctls : List String) (x : Option String)
    (hx : x ∈ (bamCollect g frtStr combined acc0 ctls).1) :
    ∃ ctl ∈ ctls, x ∈ (bamScanCtl g frtStr combined ctl).1 := by
  unfold bamCollect at hx
  have aux : ∀ (cs : List String) (st : List (Option String) × List String),
      x ∈ (cs.foldl (fun st ctl =>
        let sc := bamScanCtl g frtStr combined ctl
        (st.1 ++ sc.1, st.2 ++ (if sc.2 then [] else [acc0]))) st).1 →
      x ∈ st.1 ∨ ∃ ctl ∈ cs, x ∈ (bamScanCtl g frtStr combined ctl).1 := by
    intro cs
    induction cs with
    | nil => intro st h0; exact Or.inl h0
    | cons c cs ih =>
      intro st h0
      rw [List.foldl_cons] at h0
      rcases ih _ h0 with h1 | ⟨ctl, hc, hs⟩
      · rcases List.mem_append.mp h1 with h2 | h2
        · exact Or.inl h2
        · exact Or.inr ⟨c, List.mem_cons_self c cs, h2⟩
      · exact Or.inr ⟨ctl, List.mem_cons_of_mem c hc, hs⟩
  rcases aux ctls ([], []) hx with h1 | h1
  · simp at h1
  · exact h1

/-- C6: for a non-control row whose control body succeeds, every URI in an
emitted `ctl_nodup_bams` list comes from a file of the collection that
belongs to a chosen control dataset, has format bam, mapped run type equal
to the combined endedness, cropped read length within 2 of the combined
minimum read length, and recorded tolerance exactly 2; and when the
aggregate list is withheld (`bams = none`), the experiment carries the
`ERROR_control_error_detected` tag instead of a partial list. -/
theorem c6_control_bam_invariant (pick : Pick) (g : CtlGlobals) (row : CtlRow)
    (core : RowCore) (hpt : row.ptype ≠ "control")
    (h : controlBody pick g row = .ok core) :
    (∀ l, core.bams = some l → ∀ x ∈ l,
      ∃ f, f ∈ g.files ∧ x = some (g.linkPre ++ f.link) ∧
        f.dataset ∈ core.chosen ∧ f.file_format = "bam" ∧
        f.mapped_run_type = core.frtS ∧
        f.cropped_read_length_tolerance = some 2 ∧
        (∃ v c, f.cropped_read_length = some v ∧ core.combined = some c ∧
          c - 2 ≤ v ∧ v ≤ c + 2) ∧
        1 ≤ f.biorep_scalar ∧ f.biorep_scalar ≤ 10) ∧
    (core.bams = none → row.acc ∈ core.errCtl) := by
  unfold controlBody at h
  rw [if_neg hpt] at h
  by_cases hc : row.controls = []
  · rw [if_pos hc] at h
    exact absurd h (by simp)
  · rw [if_neg hc] at h
    cases hn : narrowControls g row with
    | error e =>
      rw [hn] at h
      simp [bind, Except.bind] at h
    | ok ctls =>
      rw [hn] at h
      simp only [bind, Except.bind] at h
      cases hend : combinedEndedness pick (ctlRunTypes g.files ctls)
          row.ert row.mapSE with
      | error c =>
        rw [hend] at h
        exact absurd h (by simp)
      | ok ob =>
        cases ob with
        | none =>
          rw [hend] at h
          exact absurd h (by simp)
        | some b =>
          rw [hend] at h
          simp only [] at h
          by_cases h1 : (bamCollect g (if b then "paired-ended" else "single-ended")
              ((ctlReadLens g.files ctls).foldl min row.expRL) row.acc ctls).1 = []
          · rw [if_pos h1] at h
            obtain rfl := Except.ok.inj h
            refine ⟨fun l hl => by simp at hl, fun _ => ?_⟩
            simp
          · rw [if_neg h1] at h
            by_cases h2 : none ∈ (bamCollect g
                (if b then "paired-ended" else "single-ended")
                ((ctlReadLens g.files ctls).foldl min row.expRL) row.acc ctls).1
            · rw [if_pos h2] at h
              obtain rfl := Except.ok.inj h
              refine ⟨fun l hl => by simp at hl, fun _ => ?_⟩
              simp
            · rw [if_neg h2] at h
              obtain rfl := Except.ok.inj h
              refine ⟨fun l hl x hx => ?_, fun hnone => by simp at hnone⟩
              obtain rfl : (bamCollect g
                  (if b then "paired-ended" else "single-ended")
                  ((ctlReadLens g.files ctls).foldl min row.expRL)
                  row.acc ctls).1 = l := Option.some.inj hl
              obtain ⟨ctl, hctl, hscan⟩ := bamCollect_mem g _ _ row.acc ctls x hx
              obtain ⟨rep, hrep, f, hfind, hxval⟩ := bamScanCtl_mem g _ _ ctl x hscan
              have hfmem : f ∈ g.files := List.mem_of_find?_eq_some hfind
              have hmatch : bamMatch ((ctlReadLens g.files ctls).foldl min row.expRL)
                  (if b then "paired-ended" else "single-ended") ctl rep f = true :=
                List.find?_some hfind
              obtain ⟨hds, hbr, hfmt, hmrt, v, hcrop, hlo, hhi⟩ :=
                bamMatch_spec _ _ ctl rep f hmatch
              rw [List.mem_range'] at hrep
              obtain ⟨i, hi, rfl⟩ := hrep
              by_cases htol : f.cropped_read_length_tolerance = some 2
              · rw [if_pos htol] at hxval
                subst hxval
                exact ⟨f, hfmem, rfl, hds ▸ hctl, hfmt, hmrt, htol,
                  ⟨v, (ctlReadLens g.files ctls).foldl min row.expRL,
                   hcrop, rfl, hlo, hhi⟩, by omega, by omega⟩
              · rw [if_neg htol] at hxval
                subst hxval
                exact absurd hx h2

/-- Witness for C6 on the good one-control row. -/
theorem c6_control_bam_invariant_witness :
    rowGood.ptype ≠ "control" ∧
    controlBody defaultPick cgGood rowGood =
      .ok (getOkBody (controlBody defaultPick cgGood rowGood)) ∧
    ((∀ l, (getOkBody (controlBody defaultPick cgGood rowGood)).bams = some l →
      ∀ x ∈ l, ∃ f, f ∈ cgGood.files ∧ x = some (cgGood.linkPre ++ f.link) ∧
        f.dataset ∈ (getOkBody (controlBody defaultPick cgGood rowGood)).chosen ∧
        f.file_format = "bam" ∧
        f.mapped_run_type = (getOkBody (controlBody defaultPick cgGood rowGood)).frtS ∧
        f.cropped_read_length_tolerance = some 2 ∧
        (∃ v c, f.cropped_read_length = some v ∧
          (getOkBody (controlBody defaultPick cgGood rowGood)).combined = some c ∧
          c - 2 ≤ v ∧ v ≤ c + 2) ∧
        1 ≤ f.biorep_scalar ∧ f.biorep_scalar ≤ 10) ∧
     ((getOkBody (controlBody defaultPick cgGood rowGood)).bams = none →
      rowGood.acc ∈ (getOkBody (controlBody defaultPick cgGood rowGood)).errCtl)) :=
  ⟨by decide, rfl,
   c6_control_bam_invariant defaultPick cgGood rowGood
     (getOkBody (controlBody defaultPick cgGood rowGood)) (by decide) rfl⟩
theorem assetStep_recognized (acc : AssetCols) (e : ExperimentRecord)
    (h : RecognizedExp e) :
    assetStepFold acc e =
      ⟨acc.blacklist ++ [(assetBundle (String.join (organismsOf e.replicates)) e.assay_title).bl],
       acc.blacklist2 ++ [(assetBundle (String.join (organismsOf e.replicates)) e.assay_title).bl2],
       acc.genome_tsv ++ [(assetBundle (String.join (organismsOf e.replicates)) e.assay_title).gt],
       acc.chrom_sizes ++ [(assetBundle (String.join (organismsOf e.replicates)) e.assay_title).cs],
       acc.ref_fa ++ [(assetBundle (String.join (organismsOf e.replicates)) e.assay_title).rf],
       acc.bowtie2 ++ [(assetBundle (String.join (organismsOf e.replicates)) e.assay_title).bt],
       acc.bwa_index ++ [(assetBundle (String.join (organismsOf e.replicates)) e.assay_title).bw]⟩ := by
  have hms : ∀ a : String, a ∈ standardAssays → a ∉ mintAssays := by decide
  obtain ⟨horg, hassay⟩ := h
  unfold assetStepFold assetBundle
  rcases horg with horg | horg <;> rw [horg] <;> rcases hassay with ha | ha
  · simp [ha]
  · simp [ha, hms _ ha]
  · simp [ha]
  · simp [ha, hms _ ha]

theorem assets_fold_recognized :
    ∀ (exps : List ExperimentRecord) (acc : AssetCols),
      (∀ e ∈ exps, RecognizedExp e) →
      exps.foldl assetStepFold acc =
        ⟨acc.blacklist ++ exps.map (fun e =>
           (assetBundle (String.join (organismsOf e.replicates)) e.assay_title).bl),
         acc.blacklist2 ++ exps.map (fun e =>
           (assetBundle (String.join (organismsOf e.replicates)) e.assay_title).bl2),
         acc.genome_tsv ++ exps.map (fun e =>
           (assetBundle (String.join (organismsOf e.replicates)) e.assay_title).gt),
         acc.chrom_sizes ++ exps.map (fun e =>
           (assetBundle (String.join (organismsOf e.replicates)) e.assay_title).cs),
         acc.ref_fa ++ exps.map (fun e =>
           (assetBundle (String.join (organismsOf e.replicates)) e.assay_title).rf),
         acc.bowtie2 ++ exps.map (fun e =>
           (assetBundle (String.join (organismsOf e.replicates)) e.assay_title).bt),
         acc.bwa_index ++ exps.map (fun e =>
           (assetBundle (String.join (organismsOf e.replicates)) e.assay_title).bw)⟩ := by
  intro exps
  induction exps with
  | nil => intro acc _; simp
  | cons e es ih =>
    intro acc hall
    rw [List.foldl_cons,
      assetStep_recognized acc e (hall e (List.mem_cons_self e es)),
      ih _ (fun x hx => hall x (List.mem_cons_of_mem e hx))]
    simp

theorem assetStep_unrecognized_blacklist (acc : AssetCols)
    (e : ExperimentRecord) (h : ¬ RecognizedExp e) :
    (assetStepFold acc e).blacklist = acc.blacklist := by
  unfold assetStepFold
  unfold RecognizedExp at h
  push_neg at h
  by_cases horg : String.join (organismsOf e.replicates) = "Homo sapiens"
  · rw [if_pos horg]
    obtain ⟨h1, h2⟩ := h (Or.inl horg)
    rw [if_neg h1, if_neg h2]
  · rw [if_neg horg]
    by_cases hmus : String.join (organismsOf e.replicates) = "Mus musculus"
    · rw [if_pos hmus]
      obtain ⟨h1, h2⟩ := h (Or.inr hmus)
      rw [if_neg h1, if_neg h2]
    · rw [if_neg hmus]

theorem assetStep_blacklist_le (acc : AssetCols) (e : ExperimentRecord) :
    (assetStepFold acc e).blacklist.length ≤ acc.blacklist.length + 1 := by
  unfold assetStepFold
  by_cases horg : String.join (organismsOf e.replicates) = "Homo sapiens"
  · rw [if_pos horg]
    by_cases h1 : e.assay_title ∈ mintAssays
    · rw [if_pos h1]; simp
    · rw [if_neg h1]
      by_cases h2 : e.assay_title ∈ standardAssays
      · rw [if_pos h2]; simp
      · rw [if_neg h2]; simp
  · rw [if_neg horg]
    by_cases hmus : String.join (organismsOf e.replicates) = "Mus musculus"
    · rw [if_pos hmus]
      by_cases h1 : e.assay_title ∈ mintAssays
      · rw [if_pos h1]; simp
      · rw [if_neg h1]
        by_cases h2 : e.assay_title ∈ standardAssays
        · rw [if_pos h2]; simp
        · rw [if_neg h2]; simp
    · rw [if_neg hmus]; simp

theorem assets_fold_blacklist_short :
    ∀ (exps : List ExperimentRecord) (acc : AssetCols),
      (∃ e ∈ exps, ¬ RecognizedExp e) →
      (exps.foldl assetStepFold acc).blacklist.length <
        acc.blacklist.length + exps.length := by
  intro exps
  induction exps with
  | nil => rintro acc ⟨e, he, _⟩; simp at he
  | cons e es ih =>
    rintro acc ⟨w, hw, hwu⟩
    rw [List.foldl_cons]
    rcases List.mem_cons.mp hw with rfl | hmem
    · have hlen : (assetStepFold acc w).blacklist.length = acc.blacklist.length := by
        rw [assetStep_unrecognized_blacklist acc w hwu]
      have hle : ∀ (l : List ExperimentRecord) (a : AssetCols),
          (l.foldl assetStepFold a).blacklist.length ≤ a.blacklist.length + l.length := by
        intro l
        induction l with
        | nil => intro a; simp
        | cons x xs ihx =>
          intro a
          rw [List.foldl_cons]
          calc (xs.foldl assetStepFold (assetStepFold a x)).blacklist.length
              ≤ (assetStepFold a x).blacklist.length + xs.length := ihx _
            _ ≤ a.blacklist.length + 1 + xs.length := by
                have := assetStep_blacklist_le a x
                omega
            _ = a.blacklist.length + (x :: xs).length := by simp; omega
      have := hle es (assetStepFold acc w)
      rw [hlen] at this
      simp only [List.length_cons]
      omega
    · have := ih (assetStepFold acc e) ⟨w, hmem, hwu⟩
      have hle := assetStep_blacklist_le acc e
      simp only [List.length_cons]
      omega

/-- C8 (amended): genome/asset selection is a pure lookup for every batch
of recognized experiments - the seven asset columns are exactly the fixed
bundle of each experiment's (species, assay) pair, with no default - and
whenever any experiment has an unrecognized species/assay combination
(including a mixed-species replicate set), the asset columns fall out of
step with the index and the whole run aborts with the length-mismatch
failure on the blacklist column, rather than a classified per-experiment
error. -/
theorem c8_asset_selection (n : Nat) (exps : List ExperimentRecord)
    (hlen : exps.length = n) :
    ((∀ e ∈ exps, RecognizedExp e) →
      assetsStage n exps = .ok
        ⟨exps.map (fun e =>
           (assetBundle (String.join (organismsOf e.replicates)) e.assay_title).bl),
         exps.map (fun e =>
           (assetBundle (String.join (organismsOf e.replicates)) e.assay_title).bl2),
         exps.map (fun e =>
           (assetBundle (String.join (organismsOf e.replicates)) e.assay_title).gt),
         exps.map (fun e =>
           (assetBundle (String.join (organismsOf e.replicates)) e.assay_title).cs),
         exps.map (fun e =>
           (assetBundle (String.join (organismsOf e.replicates)) e.assay_title).rf),
         exps.map (fun e =>
           (assetBundle (String.join (organismsOf e.replicates)) e.assay_title).bt),
         exps.map (fun e =>
           (assetBundle (String.join (organismsOf e.replicates)) e.assay_title).bw)⟩) ∧
    ((∃ e ∈ exps, ¬ RecognizedExp e) →
      assetsStage n exps = .error (.lengthMismatch "chip.blacklist")) := by
  constructor
  · intro hrec
    unfold assetsStage
    rw [assets_fold_recognized exps emptyAssetCols hrec]
    simp only [emptyAssetCols, List.nil_append]
    simp only [assignColLen, List.length_map, hlen, if_pos rfl, bind, Except.bind]
    rfl
  · rintro ⟨w, hw, hwu⟩
    unfold assetsStage
    have hshort := assets_fold_blacklist_short exps emptyAssetCols ⟨w, hw, hwu⟩
    have hne : (exps.foldl assetStepFold emptyAssetCols).blacklist.length ≠ n := by
      have h0 : emptyAssetCols.blacklist.length = 0 := rfl
      omega
    simp [assignColLen, hne, bind, Except.bind]

/-- Witness for C8 on the recognized one-experiment batch. -/
theorem c8_asset_selection_witness :
    [expGood].length = 1 ∧ (∀ e ∈ [expGood], RecognizedExp e) ∧
    assetsStage 1 [expGood] = .ok
      ⟨[expGood].map (fun e =>
         (assetBundle (String.join (organismsOf e.replicates)) e.assay_title).bl),
       [expGood].map (fun e =>
         (assetBundle (String.join (organismsOf e.replicates)) e.assay_title).bl2),
       [expGood].map (fun e =>
         (assetBundle (String.join (organismsOf e.replicates)) e.assay_title).gt),
       [expGood].map (fun e =>
         (assetBundle (String.join (organismsOf e.replicates)) e.assay_title).cs),
       [expGood].map (fun e =>
         (assetBundle (String.join (organismsOf e.replicates)) e.assay_title).rf),
       [expGood].map (fun e =>
         (assetBundle (String.join (organismsOf e.replicates)) e.assay_title).bt),
       [expGood].map (fun e =>
         (assetBundle (String.join (organismsOf e.replicates)) e.assay_title).bw)⟩ :=
  ⟨rfl, by decide, (c8_asset_selection 1 [expGood] rfl).1 (by decide)⟩
theorem exc_bind_ok {ε α β : Type} (f : Except ε α) (g : α → Except ε β)
    (b : β) (h : (f >>= g) = .ok b) : ∃ a, f = .ok a ∧ g a = .ok b := by
  cases f with
  | error e => simp [bind, Except.bind] at h
  | ok a => exact ⟨a, rfl, h⟩

theorem mapM_ok_mem {α β : Type} (f : α → Except Crash β) :
    ∀ (l : List α) (res : List β), l.mapM f = .ok res →
      ∀ b ∈ res, ∃ a ∈ l, f a = .ok b := by
  intro l
  induction l with
  | nil =>
    intro res h b hb
    rw [List.mapM_nil] at h
    obtain rfl := Except.ok.inj h
    simp at hb
  | cons a l ih =>
    intro res h b hb
    rw [List.mapM_cons] at h
    obtain ⟨b0, hb0, h⟩ := exc_bind_ok _ _ _ h
    obtain ⟨bs, hbs, h⟩ := exc_bind_ok _ _ _ h
    obtain rfl := Except.ok.inj h
    rcases List.mem_cons.mp hb with rfl | hmem
    · exact ⟨a, List.mem_cons_self a l, hb0⟩
    · obtain ⟨a1, ha1, hf⟩ := ih bs hbs b hmem
      exact ⟨a1, List.mem_cons_of_mem a ha1, hf⟩

theorem dropStage_ok_inv (rows : List RowData) (labels : List String)
    (kept : List RowData) (h : dropStage rows labels = .ok kept) :
    kept = rows.filter (fun r => !labels.contains r.title) := by
  unfold dropStage at h
  by_cases hc : labels.all (fun l => rows.any (fun r => r.title == l))
  · rw [if_pos hc] at h
    exact (Except.ok.inj h).symm
  · rw [if_neg hc] at h
    exact absurd h (by simp)

theorem emitRow_title (rd : RowData) (rec : String × List (String × JVal))
    (h : emitRow rd = .ok rec) : rec.1 = rd.title := by
  unfold emitRow at h
  dsimp only [] at h
  split at h
  · simp [bind, Except.bind] at h
  · split at h
    · obtain ⟨t, ht, h⟩ := exc_bind_ok _ _ _ h
      obtain ⟨y, hy, h⟩ := exc_bind_ok _ _ _ h
      obtain ⟨a4, h4, h⟩ := exc_bind_ok _ _ _ h
      obtain ⟨a5, h5, h⟩ := exc_bind_ok _ _ _ h
      obtain rfl := Except.ok.inj h
      rfl
    · obtain ⟨y, hy, h⟩ := exc_bind_ok _ _ _ h
      obtain ⟨a4, h4, h⟩ := exc_bind_ok _ _ _ h
      obtain ⟨a5, h5, h⟩ := exc_bind_ok _ _ _ h
      obtain rfl := Except.ok.inj h
      rfl

/-- C2: in every completed run, an experiment with at least one error tag
(in any of the five error categories, possibly several tags or repeated
tags) is absent from the emitted records; and the removal step itself
succeeds for every tagged set whose labels name rows of the table,
removing each tagged row exactly once (the untagged rows survive
unchanged). -/
theorem c2_tagged_excluded (pick : Pick) (inp : Inputs) (out : SynthOut)
    (h : synthesize pick inp = .ok out) :
    (∀ acc, acc ∈ out.errCtl ++ out.errNoFastqs ++ out.errMissingPairs ++
        out.errEnded ++ out.errNotAlignOnly →
      ∀ rec ∈ out.records, rec.1 ≠ acc) ∧
    (∀ (rows : List RowData) (labels : List String),
      (∀ l ∈ labels, ∃ r ∈ rows, r.title = l) →
      dropStage rows labels =
        .ok (rows.filter (fun r => !labels.contains r.title))) := by
  constructor
  · unfold synthesize at h
    dsimp only [] at h
    obtain ⟨assayCol, hA, h⟩ := exc_bind_ok _ _ _ h
    obtain ⟨assets, hB, h⟩ := exc_bind_ok _ _ _ h
    obtain ⟨eOut, hC, h⟩ := exc_bind_ok _ _ _ h
    obtain ⟨cOut, hD, h⟩ := exc_bind_ok _ _ _ h
    obtain ⟨frts, h5, h⟩ := exc_bind_ok _ _ _ h
    obtain ⟨crops, h6, h⟩ := exc_bind_ok _ _ _ h
    obtain ⟨bams, h7, h⟩ := exc_bind_ok _ _ _ h
    obtain ⟨aligners, h8, h⟩ := exc_bind_ok _ _ _ h
    obtain ⟨useBwa, h9, h⟩ := exc_bind_ok _ _ _ h
    obtain ⟨bwaLim, h10, h⟩ := exc_bind_ok _ _ _ h
    obtain ⟨ptypes, h11, h⟩ := exc_bind_ok _ _ _ h
    obtain ⟨redact, h12, h⟩ := exc_bind_ok _ _ _ h
    obtain ⟨fqcols, h13, h⟩ := exc_bind_ok _ _ _ h
    obtain ⟨kept, hkept, h⟩ := exc_bind_ok _ _ _ h
    obtain ⟨recs, hrecs, h⟩ := exc_bind_ok _ _ _ h
    obtain rfl : (⟨recs, eOut.errNoFastqs, eOut.errMissingPairs, cOut.errCtl,
        cOut.errEnded, _⟩ : SynthOut) = out := Except.ok.inj h
    dsimp only []
    intro acc hacc rec hrec
    obtain ⟨rd, hrd, hemit⟩ := mapM_ok_mem emitRow kept recs hrecs rec hrec
    rw [emitRow_title rd rec hemit]
    have hkeq := dropStage_ok_inv _ _ _ hkept
    rw [hkeq] at hrd
    obtain ⟨_, hp⟩ := List.mem_filter.mp hrd
    simp only [Bool.not_eq_eq_eq_not, Bool.not_true] at hp
    intro hteq
    rw [hteq] at hp
    have hcon := List.elem_eq_true_of_mem hacc
    rw [show ∀ (l : List String) (a : String), l.contains a = List.elem a l
      from fun _ _ => rfl] at hp
    rw [hcon] at hp
    exact Bool.noConfusion hp
  · intro rows labels hsub
    unfold dropStage
    rw [if_pos ?_]
    · rw [List.all_eq_true]
      intro l hl
      rw [List.any_eq_true]
      obtain ⟨r, hr, ht⟩ := hsub l hl
      exact ⟨r, hr, by rw [ht]; exact beq_self_eq_true l⟩

/-- Witness for C2 on the good one-experiment batch. -/
theorem c2_tagged_excluded_witness :
    synthesize defaultPick goodInputs =
      .ok (getOkSynth (synthesize defaultPick goodInputs)) ∧
    ((∀ acc, acc ∈ (getOkSynth (synthesize defaultPick goodInputs)).errCtl ++
        (getOkSynth (synthesize defaultPick goodInputs)).errNoFastqs ++
        (getOkSynth (synthesize defaultPick goodInputs)).errMissingPairs ++
        (getOkSynth (synthesize defaultPick goodInputs)).errEnded ++
        (getOkSynth (synthesize defaultPick goodInputs)).errNotAlignOnly →
      ∀ rec ∈ (getOkSynth (synthesize defaultPick goodInputs)).records,
        rec.1 ≠ acc) ∧
     (∀ (rows : List RowData) (labels : List String),
       (∀ l ∈ labels, ∃ r ∈ rows, r.title = l) →
       dropStage rows labels =
         .ok (rows.filter (fun r => !labels.contains r.title)))) :=
  ⟨rfl, c2_tagged_excluded defaultPick goodInputs
    (getOkSynth (synthesize defaultPick goodInputs)) rfl⟩
theorem popReq_ok_inv (r : List (String × JVal)) (k : String)
    (r' : List (String × JVal)) (h : popReq r k = .ok r') :
    r' = r.filter (fun kv => kv.1 != k) := by
  unfold popReq at h
  by_cases hc : (r.find? (fun kv => kv.1 == k)).isSome
  · rw [if_pos hc] at h
    exact (Except.ok.inj h).symm
  · rw [if_neg hc] at h
    exact absurd h (by simp)

theorem lookup_filter_keep (l : List (String × JVal)) (k : String)
    (p : String × JVal → Bool) (hp : ∀ v, p (k, v) = true) :
    lookupVal (l.filter p) k = lookupVal l k := by
  induction l with
  | nil => rfl
  | cons kv l ih =>
    by_cases hbeq : kv.1 = k
    · have hkv : kv = (k, kv.2) := by
        obtain ⟨k1, v1⟩ := kv
        simp at hbeq
        rw [hbeq]
      rw [hkv, List.filter_cons, hp kv.2]
      simp [lookupVal]
    · rw [List.filter_cons]
      by_cases hpkv : p kv
      · rw [if_pos hpkv]
        unfold lookupVal
        rw [List.find?_cons_of_neg _ (by simp [hbeq]),
          List.find?_cons_of_neg _ (by simp [hbeq])]
        exact ih
      · rw [if_neg hpkv]
        unfold lookupVal
        rw [List.find?_cons_of_neg _ (by simp [hbeq])]
        exact ih

theorem lookup_filter_eval (l : List (String × JVal)) (k : String) (v : JVal)
    (p : String × JVal → Bool) (hl : lookupVal l k = some v)
    (huniq : ∀ kv ∈ l, kv.1 = k → kv.2 = v) :
    lookupVal (l.filter p) k = if p (k, v) = true then some v else none := by
  induction l with
  | nil => simp [lookupVal] at hl
  | cons kv l ih =>
    by_cases hbeq : kv.1 = k
    · have hv : kv.2 = v := huniq kv (List.mem_cons_self kv l) hbeq
      have hkv : kv = (k, v) := by
        obtain ⟨k1, v1⟩ := kv
        simp at hbeq hv
        rw [hbeq, hv]
      subst hkv
      rw [List.filter_cons]
      by_cases hp : p (k, v)
      · rw [if_pos hp, if_pos hp]
        unfold lookupVal
        rw [List.find?_cons_of_pos _ (by simp)]
        rfl
      · rw [if_neg hp, if_neg hp]
        unfold lookupVal
        rw [List.find?_eq_none.mpr ?_]
        · rfl
        · intro kv' hkv'
          have hm := List.mem_of_mem_filter hkv'
          have hpk := List.of_mem_filter hkv'
          intro hk
          simp only [beq_iff_eq] at hk
          have := huniq kv' (List.mem_cons_of_mem _ hm) hk
          have hkv'eq : kv' = (k, v) := by
            obtain ⟨k1, v1⟩ := kv'
            simp at hk this
            rw [hk, this]
          rw [hkv'eq] at hpk
          rw [hpk] at hp
          exact hp rfl
    · have hl' : lookupVal l k = some v := by
        unfold lookupVal at hl ⊢
        rw [List.find?_cons_of_neg _ (by simp [hbeq])] at hl
        exact hl
      have huniq' : ∀ kv' ∈ l, kv'.1 = k → kv'.2 = v :=
        fun kv' hm hk => huniq kv' (List.mem_cons_of_mem _ hm) hk
      rw [List.filter_cons]
      by_cases hpkv : p kv
      · rw [if_pos hpkv]
        unfold lookupVal
        rw [List.find?_cons_of_neg _ (by simp [hbeq])]
        exact ih hl' huniq'
      · rw [if_neg hpkv]
        exact ih hl' huniq'
theorem mkRecord_uniq_bams (rd : RowData) :
    ∀ kv ∈ mkRecord rd, kv.1 = "chip.ctl_nodup_bams" → kv.2 = bamsCell rd.bams := by
  intro kv hm hk
  unfold mkRecord at hm
  rw [List.mem_append] at hm
  rcases hm with hm | hm
  · simp only [List.mem_cons, List.not_mem_nil, or_false] at hm
    rcases hm with rfl|rfl|rfl|rfl|rfl|rfl|rfl|rfl|rfl|rfl|rfl|rfl|rfl|rfl|rfl|rfl|rfl|rfl|rfl|rfl|rfl|rfl
    all_goals first
      | rfl
      | simp at hk
  · rw [List.mem_flatten] at hm
    obtain ⟨inner, hin, hkv⟩ := hm
    rw [List.mem_map] at hin
    obtain ⟨k0, hk0, rfl⟩ := hin
    fin_cases hk0 <;>
      (simp only [List.mem_cons, List.not_mem_nil, or_false] at hkv;
       rcases hkv with rfl | rfl <;>
         (simp only [] at hk; exact absurd hk (by decide)))

theorem mkRecord_uniq_pooled (rd : RowData) :
    ∀ kv ∈ mkRecord rd, kv.1 = "chip.always_use_pooled_ctl" →
      kv.2 = optBoolCell rd.pooled := by
  intro kv hm hk
  unfold mkRecord at hm
  rw [List.mem_append] at hm
  rcases hm with hm | hm
  · simp only [List.mem_cons, List.not_mem_nil, or_false] at hm
    rcases hm with rfl|rfl|rfl|rfl|rfl|rfl|rfl|rfl|rfl|rfl|rfl|rfl|rfl|rfl|rfl|rfl|rfl|rfl|rfl|rfl|rfl|rfl
    all_goals first
      | rfl
      | simp at hk
  · rw [List.mem_flatten] at hm
    obtain ⟨inner, hin, hkv⟩ := hm
    rw [List.mem_map] at hin
    obtain ⟨k0, hk0, rfl⟩ := hin
    fin_cases hk0 <;>
      (simp only [List.mem_cons, List.not_mem_nil, or_false] at hkv;
       rcases hkv with rfl | rfl <;>
         (simp only [] at hk; exact absurd hk (by decide)))

theorem mkRecord_uniq_ptype (rd : RowData) :
    ∀ kv ∈ mkRecord rd, kv.1 = "chip.pipeline_type" → kv.2 = .str rd.ptype := by
  intro kv hm hk
  unfold mkRecord at hm
  rw [List.mem_append] at hm
  rcases hm with hm | hm
  · simp only [List.mem_cons, List.not_mem_nil, or_false] at hm
    rcases hm with rfl|rfl|rfl|rfl|rfl|rfl|rfl|rfl|rfl|rfl|rfl|rfl|rfl|rfl|rfl|rfl|rfl|rfl|rfl|rfl|rfl|rfl
    all_goals first
      | rfl
      | simp at hk
  · rw [List.mem_flatten] at hm
    obtain ⟨inner, hin, hkv⟩ := hm
    rw [List.mem_map] at hin
    obtain ⟨k0, hk0, rfl⟩ := hin
    fin_cases hk0 <;>
      (simp only [List.mem_cons, List.not_mem_nil, or_false] at hkv;
       rcases hkv with rfl | rfl <;>
         (simp only [] at hk; exact absurd hk (by decide)))

theorem stepCore_control (pick : Pick) (g : CtlGlobals) (row : CtlRow)
    (hp : row.ptype = "control") : (stepCore pick g row).bams = none := by
  have hb : controlBody pick g row = .ok
      ⟨none, some (!(row.ert == "single-ended" || row.mapSE)), some row.expRL,
       [], [], [], none, none⟩ := by
    unfold controlBody
    rw [if_pos hp]
  unfold stepCore
  rw [hb]

theorem assignColLen_ok_inv {α : Type} (n : Nat) (c : String) (l l' : List α)
    (h : assignColLen n c l = .ok l') : l' = l ∧ l.length = n := by
  unfold assignColLen at h
  by_cases hc : l.length = n
  · rw [if_pos hc] at h
    exact ⟨(Except.ok.inj h).symm, hc⟩
  · rw [if_neg hc] at h
    exact absurd h (by simp)

theorem ctlLoop_ok_bams (pick : Pick) (g : CtlGlobals) (rows : List CtlRow)
    (outs : CtlOuts) (h : ctlLoop pick g rows = .ok outs) :
    outs.bams = rows.map (fun r => (stepCore pick g r).bams) := by
  unfold ctlLoop at h
  have aux : ∀ (rs : List CtlRow) (acc : CtlOuts) (o : CtlOuts),
      List.foldlM (fun a r => (controlStep pick g r).map (ctlAppend a)) acc rs =
        .ok o →
      o.bams = acc.bams ++ rs.map (fun r => (stepCore pick g r).bams) := by
    intro rs
    induction rs with
    | nil =>
      intro acc o h0
      obtain rfl := Except.ok.inj h0
      simp
    | cons r rs ih =>
      intro acc o h0
      rw [List.foldlM_cons] at h0
      cases hs : controlStep pick g r with
      | error e =>
        rw [hs] at h0
        simp [Except.map, bind, Except.bind] at h0
      | ok c =>
        have hok : (controlStep pick g r).isOk := by rw [hs]; rfl
        have hcore : c = stepCore pick g r := by
          have h2 := controlStep_eq_stepCore pick g r hok
          rw [hs] at h2
          exact Except.ok.inj h2
        rw [hs] at h0
        have h1 : List.foldlM
            (fun a r => (controlStep pick g r).map (ctlAppend a))
            (ctlAppend acc c) rs = .ok o := h0
        rw [ih _ _ h1, hcore]
        simp [ctlAppend]
  have := aux rows emptyCtlOuts outs h
  simpa [emptyCtlOuts] using this
theorem zip_step_bams_control (pick : Pick) (g : CtlGlobals) :
    ∀ (cs : List (List String)) (accs ps rts : List String)
      (reps : List (List Replicate)) (ms : List Int) (us bs : List Bool)
      (i : Nat),
      i < ((zipCtlRows cs accs ps rts reps ms us bs).map
            (fun r => (stepCore pick g r).bams)).length →
      ps.getD i "" = "control" →
      ((zipCtlRows cs accs ps rts reps ms us bs).map
        (fun r => (stepCore pick g r).bams)).getD i none = none := by
  intro cs
  induction cs with
  | nil =>
    intro accs ps rts reps ms us bs i h hp
    rw [show zipCtlRows [] accs ps rts reps ms us bs = [] from rfl] at h
    simp at h
  | cons c cs ih =>
    intro accs ps rts reps ms us bs i h hp
    cases accs with
    | nil =>
      rw [show zipCtlRows (c :: cs) [] ps rts reps ms us bs = [] from rfl] at h
      simp at h
    | cons a accs =>
    cases ps with
    | nil =>
      rw [show zipCtlRows (c :: cs) (a :: accs) [] rts reps ms us bs = []
        from rfl] at h
      simp at h
    | cons p ps =>
    cases rts with
    | nil =>
      rw [show zipCtlRows (c :: cs) (a :: accs) (p :: ps) [] reps ms us bs = []
        from rfl] at h
      simp at h
    | cons rt rts =>
    cases reps with
    | nil =>
      rw [show zipCtlRows (c :: cs) (a :: accs) (p :: ps) (rt :: rts) [] ms us bs
        = [] from rfl] at h
      simp at h
    | cons rep reps =>
    cases ms with
    | nil =>
      rw [show zipCtlRows (c :: cs) (a :: accs) (p :: ps) (rt :: rts)
        (rep :: reps) [] us bs = [] from rfl] at h
      simp at h
    | cons m ms =>
    cases us with
    | nil =>
      rw [show zipCtlRows (c :: cs) (a :: accs) (p :: ps) (rt :: rts)
        (rep :: reps) (m :: ms) [] bs = [] from rfl] at h
      simp at h
    | cons u us =>
    cases bs with
    | nil =>
      rw [show zipCtlRows (c :: cs) (a :: accs) (p :: ps) (rt :: rts)
        (rep :: reps) (m :: ms) (u :: us) [] = [] from rfl] at h
      simp at h
    | cons b bs =>
      rw [show zipCtlRows (c :: cs) (a :: accs) (p :: ps) (rt :: rts)
        (rep :: reps) (m :: ms) (u :: us) (b :: bs) =
        ⟨c, a, p, rt, rep, m, u, b⟩ ::
          zipCtlRows cs accs ps rts reps ms us bs from rfl] at h ⊢
      cases i with
      | zero =>
        rw [List.map_cons, List.getD_cons_zero]
        exact stepCore_control pick g _ (by simpa using hp)
      | succ i =>
        rw [List.map_cons, List.getD_cons_succ]
        rw [List.map_cons, List.length_cons] at h
        exact ih accs ps rts reps ms us bs i (by omega) (by simpa using hp)
/-- Evaluation of one surviving key through the emission pruning: a key
that no pop removes reaches the final record exactly when its cell value
is non-empty. -/
theorem emit_lookup (rd : RowData) (rec : String × List (String × JVal))
    (h : emitRow rd = .ok rec) (k : String) (v : JVal)
    (hR2 : strEndsWith k "_R2" = false)
    (hk2 : k ≠ "chip.crop_length") (hk3 : k ≠ "chip.crop_length_tol")
    (hk4 : k ≠ "custom_message") (hk5 : k ≠ "assay_title")
    (h0 : lookupVal (mkRecord rd) k = some v)
    (huniq : ∀ kv ∈ mkRecord rd, kv.1 = k → kv.2 = v) :
    lookupVal rec.2 k = if isEmptyVal v = true then none else some v := by
  have hA1 : lookupVal
      (if lookupVal (mkRecord rd) "chip.paired_end" = some (JVal.bool false)
       then List.filter (fun kv => !strEndsWith kv.1 "_R2") (mkRecord rd)
       else mkRecord rd) k = some v := by
    by_cases hpe : lookupVal (mkRecord rd) "chip.paired_end" =
        some (JVal.bool false)
    · rw [if_pos hpe, lookup_filter_keep _ _ _ (fun w => by simp [hR2])]
      exact h0
    · rw [if_neg hpe]
      exact h0
  have hA1u : ∀ kv ∈
      (if lookupVal (mkRecord rd) "chip.paired_end" = some (JVal.bool false)
       then List.filter (fun kv => !strEndsWith kv.1 "_R2") (mkRecord rd)
       else mkRecord rd), kv.1 = k → kv.2 = v := by
    intro kv hm hk
    by_cases hpe : lookupVal (mkRecord rd) "chip.paired_end" =
        some (JVal.bool false)
    · rw [if_pos hpe] at hm
      exact huniq kv (List.mem_of_mem_filter hm) hk
    · rw [if_neg hpe] at hm
      exact huniq kv hm hk
  have hA2 : lookupVal (List.filter (fun kv => !isEmptyVal kv.2)
      (if lookupVal (mkRecord rd) "chip.paired_end" = some (JVal.bool false)
       then List.filter (fun kv => !strEndsWith kv.1 "_R2") (mkRecord rd)
       else mkRecord rd)) k =
      if isEmptyVal v = true then none else some v := by
    rw [lookup_filter_eval _ _ v _ hA1 hA1u]
    by_cases he : isEmptyVal v
    · simp [he]
    · simp [he]
  unfold emitRow at h
  dsimp only [] at h
  split at h
  · simp [bind, Except.bind] at h
  · split at h
    · obtain ⟨t, ht, h⟩ := exc_bind_ok _ _ _ h
      obtain ⟨y, hy, h⟩ := exc_bind_ok _ _ _ h
      obtain ⟨a4, h4, h⟩ := exc_bind_ok _ _ _ h
      obtain ⟨a5, h5, h⟩ := exc_bind_ok _ _ _ h
      obtain rfl := Except.ok.inj h
      show lookupVal a5 k = _
      rw [popReq_ok_inv _ _ _ h5, popReq_ok_inv _ _ _ h4,
        popReq_ok_inv _ _ _ hy, popReq_ok_inv _ _ _ ht]
      rw [lookup_filter_keep _ _ _ (fun w => by simp [bne_iff_ne, hk5]),
        lookup_filter_keep _ _ _ (fun w => by simp [bne_iff_ne, hk4]),
        lookup_filter_keep _ _ _ (fun w => by simp [bne_iff_ne, hk3]),
        lookup_filter_keep _ _ _ (fun w => by simp [bne_iff_ne, hk2])]
      exact hA2
    · obtain ⟨y, hy, h⟩ := exc_bind_ok _ _ _ h
      obtain ⟨a4, h4, h⟩ := exc_bind_ok _ _ _ h
      obtain ⟨a5, h5, h⟩ := exc_bind_ok _ _ _ h
      obtain rfl := Except.ok.inj h
      have hyeq : _ = y := Except.ok.inj hy
      show lookupVal a5 k = _
      rw [popReq_ok_inv _ _ _ h5, popReq_ok_inv _ _ _ h4, ← hyeq]
      rw [lookup_filter_keep _ _ _ (fun w => by simp [bne_iff_ne, hk5]),
        lookup_filter_keep _ _ _ (fun w => by simp [bne_iff_ne, hk4])]
      exact hA2

/-- C10: in every completed run, an emitted record whose pipeline type is
control carries neither `chip.ctl_nodup_bams` nor
`chip.always_use_pooled_ctl` (both cells are `None` and are pruned away),
while every other emitted record carries `chip.always_use_pooled_ctl`
with value `true`. -/
theorem c10_control_fields (pick : Pick) (inp : Inputs) (out : SynthOut)
    (h : synthesize pick inp = .ok out) :
    ∀ rec ∈ out.records,
      (lookupVal rec.2 "chip.pipeline_type" = some (.str "control") →
        lookupVal rec.2 "chip.ctl_nodup_bams" = none ∧
        lookupVal rec.2 "chip.always_use_pooled_ctl" = none) ∧
      (lookupVal rec.2 "chip.pipeline_type" ≠ some (.str "control") →
        lookupVal rec.2 "chip.always_use_pooled_ctl" = some (.bool true)) := by
  unfold synthesize at h
  dsimp only [] at h
  obtain ⟨assayCol, hA, h⟩ := exc_bind_ok _ _ _ h
  obtain ⟨assets, hB, h⟩ := exc_bind_ok _ _ _ h
  obtain ⟨eOut, hC, h⟩ := exc_bind_ok _ _ _ h
  obtain ⟨cOut, hD, h⟩ := exc_bind_ok _ _ _ h
  obtain ⟨frts, h5, h⟩ := exc_bind_ok _ _ _ h
  obtain ⟨crops, h6, h⟩ := exc_bind_ok _ _ _ h
  obtain ⟨bams, h7, h⟩ := exc_bind_ok _ _ _ h
  obtain ⟨aligners, h8, h⟩ := exc_bind_ok _ _ _ h
  obtain ⟨useBwa, h9, h⟩ := exc_bind_ok _ _ _ h
  obtain ⟨bwaLim, h10, h⟩ := exc_bind_ok _ _ _ h
  obtain ⟨ptypes, h11, h⟩ := exc_bind_ok _ _ _ h
  obtain ⟨redact, h12, h⟩ := exc_bind_ok _ _ _ h
  obtain ⟨fqcols, h13, h⟩ := exc_bind_ok _ _ _ h
  obtain ⟨kept, hkept, h⟩ := exc_bind_ok _ _ _ h
  obtain ⟨recs, hrecs, h⟩ := exc_bind_ok _ _ _ h
  obtain rfl : (⟨recs, eOut.errNoFastqs, eOut.errMissingPairs, cOut.errCtl,
      cOut.errEnded, _⟩ : SynthOut) = out := Except.ok.inj h
  dsimp only []
  intro rec hrec
  obtain ⟨rd, hrd, hemit⟩ := mapM_ok_mem emitRow kept recs hrecs rec hrec
  have hkeq := dropStage_ok_inv _ _ _ hkept
  rw [hkeq] at hrd
  have hrdrows := List.mem_of_mem_filter hrd
  obtain ⟨i, hi, hrdeq⟩ := List.mem_map.mp hrdrows
  rw [List.mem_range] at hi
  have hlp : lookupVal rec.2 "chip.pipeline_type" =
      if isEmptyVal (JVal.str rd.ptype) = true then none
      else some (JVal.str rd.ptype) :=
    emit_lookup rd rec hemit _ _ (by decide) (by decide) (by decide)
      (by decide) (by decide) rfl (mkRecord_uniq_ptype rd)
  have hlb : lookupVal rec.2 "chip.ctl_nodup_bams" =
      if isEmptyVal (bamsCell rd.bams) = true then none
      else some (bamsCell rd.bams) :=
    emit_lookup rd rec hemit _ _ (by decide) (by decide) (by decide)
      (by decide) (by decide) rfl (mkRecord_uniq_bams rd)
  have hlo : lookupVal rec.2 "chip.always_use_pooled_ctl" =
      if isEmptyVal (optBoolCell rd.pooled) = true then none
      else some (optBoolCell rd.pooled) :=
    emit_lookup rd rec hemit _ _ (by decide) (by decide) (by decide)
      (by decide) (by decide) rfl (mkRecord_uniq_pooled rd)
  have hbq : rd.bams = bams.getD i none := by rw [← hrdeq]; rfl
  have hpq : rd.ptype = ptypes.getD i "" := by rw [← hrdeq]; rfl
  have hpooledq : rd.pooled =
      if ptypes.getD i "" ≠ "control" then some true else none := by
    rw [← hrdeq]; rfl
  obtain ⟨hpt_eq, hpt_len⟩ := assignColLen_ok_inv _ _ _ _ h11
  obtain ⟨hbm_eq, hbm_len⟩ := assignColLen_ok_inv _ _ _ _ h7
  have hbams_map := ctlLoop_ok_bams _ _ _ _ hD
  have halign : rd.ptype = "control" → rd.bams = none := by
    intro hc
    rw [hbq, hbm_eq, hbams_map]
    apply zip_step_bams_control
    · rw [← hbams_map]
      omega
    · rw [← hpt_eq]
      rw [hpq] at hc
      exact hc
  constructor
  · intro hctl
    have hptc : rd.ptype = "control" := by
      rw [hlp] at hctl
      by_cases he : isEmptyVal (JVal.str rd.ptype) = true
      · rw [if_pos he] at hctl
        exact absurd hctl (by simp)
      · rw [if_neg he] at hctl
        exact JVal.str.inj (Option.some.inj hctl)
    have hptc2 : ptypes.getD i "" = "control" := by rw [← hpq]; exact hptc
    constructor
    · rw [hlb, halign hptc]
      rfl
    · have hpool : rd.pooled = none := by
        rw [hpooledq, if_neg (fun hx => hx hptc2)]
      rw [hlo, hpool]
      rfl
  · intro hnc
    have hptnc : rd.ptype ≠ "control" := by
      intro hq
      apply hnc
      rw [hlp, hq]
      rfl
    have hpool : rd.pooled = some true := by
      rw [hpooledq, if_pos (by rw [← hpq]; exact hptnc)]
    rw [hlo, hpool]
    rfl

/-- Witness for C10 on a batch holding one emitted control record and one
emitted non-control record. -/
theorem c10_control_fields_witness :
    synthesize defaultPick ctlBatch =
      .ok (getOkSynth (synthesize defaultPick ctlBatch)) ∧
    (∀ rec ∈ (getOkSynth (synthesize defaultPick ctlBatch)).records,
      (lookupVal rec.2 "chip.pipeline_type" = some (.str "control") →
        lookupVal rec.2 "chip.ctl_nodup_bams" = none ∧
        lookupVal rec.2 "chip.always_use_pooled_ctl" = none) ∧
      (lookupVal rec.2 "chip.pipeline_type" ≠ some (.str "control") →
        lookupVal rec.2 "chip.always_use_pooled_ctl" = some (.bool true))) :=
  ⟨rfl, c10_control_fields defaultPick ctlBatch
    (getOkSynth (synthesize defaultPick ctlBatch)) rfl⟩

theorem mem_setInsert {α : Type} [DecidableEq α] {l : List α} {a x : α}
    (h : x ∈ setInsert l a) : x ∈ l ∨ x = a := by
  unfold setInsert at h
  split at h
  · exact Or.inl h
  · rcases List.mem_append.mp h with h' | h'
    · exact Or.inl h'
    · exact Or.inr (List.mem_singleton.mp h')

theorem foldlM_congr {σ α ε : Type} (f1 f2 : σ → α → Except ε σ)
    (l : List α) (h : ∀ s a, a ∈ l → f1 s a = f2 s a) :
    ∀ init, l.foldlM f1 init = l.foldlM f2 init := by
  induction l with
  | nil => intro init; rfl
  | cons a as ih =>
    intro init
    show (f1 init a >>= fun s => as.foldlM f1 s) =
         (f2 init a >>= fun s => as.foldlM f2 s)
    rw [h init a (List.mem_cons_self a as)]
    cases hf : f2 init a with
    | error e => rfl
    | ok s =>
      show as.foldlM f1 s = as.foldlM f2 s
      exact ih (fun s' a' ha' => h s' a' (List.mem_cons_of_mem a ha')) s

theorem processFile_rts_good (g : ExpCtx) (acc0 : String) (mapSE : Bool)
    (hf : ∀ f ∈ g.files, strEndsWith f.link "fastq.gz" = true → GoodRT f.run_type)
    (st : FileScan) (link : String)
    (hst : ∀ x ∈ st.rts, GoodRT x) :
    ∀ x ∈ (processFile g acc0 mapSE st link).rts, GoodRT x := by
  intro x hx
  unfold processFile at hx
  split at hx
  case isFalse => exact hst x hx
  case isTrue hend =>
    dsimp only [] at hx
    split at hx
    · exact hst x hx
    next f hfind =>
      split at hx
      case isFalse => exact hst x hx
      case isTrue hok =>
        rcases mem_setInsert hx with h | rfl
        · -- the slot updates never touch `rts`
          split at h
          · split at h
            · split at h
              · exact hst x h
              · split at h
                · exact hst x h
                · exact hst x h
            · exact hst x h
          · split at h
            · split at h
              · exact hst x h
              · exact hst x h
            · exact hst x h
        · have hmem : f ∈ g.files := by
            unfold findFile at hfind
            exact List.mem_of_find?_eq_some hfind
          have hlink : f.link = link := by
            unfold findFile at hfind
            have := List.find?_some hfind
            exact eq_of_beq this
          exact hf f hmem (by rw [hlink]; exact hend)

theorem foldl_processFile_rts_good (g : ExpCtx) (acc0 : String) (mapSE : Bool)
    (hf : ∀ f ∈ g.files, strEndsWith f.link "fastq.gz" = true → GoodRT f.run_type) :
    ∀ (links : List String) (st : FileScan), (∀ x ∈ st.rts, GoodRT x) →
      ∀ x ∈ (links.foldl (processFile g acc0 mapSE) st).rts, GoodRT x := by
  intro links
  induction links with
  | nil => intro st hst; exact hst
  | cons l ls ih =>
    intro st hst
    exact ih _ (processFile_rts_good g acc0 mapSE hf st l hst)

theorem expRunType_eval (p : Pick) (hp : ValidPick p) (rts : List (Option String))
    (hg : ∀ x ∈ rts, GoodRT x) :
    expRunType p rts =
      (if (some "single-ended") ∈ rts then .ok .single
       else if rts = [] then .error .stopIteration
       else .ok .paired) := by
  unfold expRunType
  split
  · rfl
  next hse =>
    split
    · rfl
    next hne =>
      obtain ⟨x, hx⟩ := Option.isSome_iff_exists.mp (hp.2 rts hne)
      have hmem := hp.1 rts x hx
      rcases hg x hmem with h1 | h2
      · exact absurd (h1 ▸ hmem) hse
      · split
        · rfl
        next hnp => exact absurd (by rw [hx, h2]) hnp

theorem processExperimentRow_det (g : ExpCtx) (p1 p2 : Pick)
    (h1 : ValidPick p1) (h2 : ValidPick p2)
    (hf : ∀ f ∈ g.files, strEndsWith f.link "fastq.gz" = true → GoodRT f.run_type)
    (s : ExpState) (row : ExpRow) :
    processExperimentRow g p1 s row = processExperimentRow g p2 s row := by
  have hg : ∀ x ∈ (row.efiles.foldl (processFile g row.acc row.mapSE)
      ⟨emptySlots, [], [], []⟩).rts, GoodRT x :=
    foldl_processFile_rts_good g row.acc row.mapSE hf row.efiles _
      (by intro x hx; cases hx)
  unfold processExperimentRow
  simp only [expRunType_eval p1 h1 _ hg, expRunType_eval p2 h2 _ hg]

theorem expLoop_det (g : ExpCtx) (p1 p2 : Pick)
    (h1 : ValidPick p1) (h2 : ValidPick p2)
    (hf : ∀ f ∈ g.files, strEndsWith f.link "fastq.gz" = true → GoodRT f.run_type)
    (rows : List ExpRow) : expLoop g p1 rows = expLoop g p2 rows := by
  unfold expLoop
  exact foldlM_congr _ _ rows
    (fun s r _ => processExperimentRow_det g p1 p2 h1 h2 hf s r) emptyExpState

theorem files_fold_rts_good (c : String) :
    ∀ (files : List FileRecord),
      (∀ f ∈ files, f.file_format = "fastq" → GoodRT f.run_type) →
    ∀ (acc : List (Option String)), (∀ x ∈ acc, GoodRT x) →
    ∀ x ∈ files.foldl
        (fun a f => if f.dataset = c ∧ f.file_format = "fastq"
                    then setInsert a f.run_type else a) acc, GoodRT x := by
  intro files
  induction files with
  | nil => intro _ acc hacc; exact hacc
  | cons f fs ih =>
    intro hf acc hacc
    refine ih (fun g hg hfmt => hf g (List.mem_cons_of_mem f hg) hfmt) _ ?_
    intro x hx
    dsimp only [] at hx
    split at hx
    next hcond =>
      rcases mem_setInsert hx with h | rfl
      · exact hacc x h
      · exact hf f (List.mem_cons_self f fs) hcond.2
    next => exact hacc x hx

theorem ctlRunTypes_good (files : List FileRecord)
    (hf : ∀ f ∈ files, f.file_format = "fastq" → GoodRT f.run_type)
    (ctls : List String) : ∀ x ∈ ctlRunTypes files ctls, GoodRT x := by
  unfold ctlRunTypes
  have key : ∀ (cs : List String) (acc : List (Option String)),
      (∀ x ∈ acc, GoodRT x) →
      ∀ x ∈ cs.foldl
        (fun acc c => files.foldl
          (fun a f => if f.dataset = c ∧ f.file_format = "fastq"
                      then setInsert a f.run_type else a) acc) acc, GoodRT x := by
    intro cs
    induction cs with
    | nil => intro acc hacc; exact hacc
    | cons c cs' ih =>
      intro acc hacc
      exact ih _ (files_fold_rts_good c files hf acc hacc)
  exact key ctls [] (by intro x hx; cases hx)

theorem combinedEndedness_eval (p : Pick) (hp : ValidPick p)
    (crt : List (Option String)) (ert : String) (mapSE : Bool)
    (hg : ∀ x ∈ crt, GoodRT x) :
    combinedEndedness p crt ert mapSE =
      (if (some "single-ended") ∈ crt ∨ ert = "single-ended" ∨ mapSE = true
       then .ok (some false)
       else if crt = [] then .error .stopIteration
       else if ert = "paired-ended" then .ok (some true) else .ok none) := by
  unfold combinedEndedness
  split
  · rfl
  next hno =>
    split
    · rfl
    next hne =>
      obtain ⟨x, hx⟩ := Option.isSome_iff_exists.mp (hp.2 crt hne)
      have hmem := hp.1 crt x hx
      have hnse : ¬ (some "single-ended" ∈ crt) := fun hc => hno (Or.inl hc)
      rcases hg x hmem with hh | hh
      · exact absurd (hh ▸ hmem) hnse
      · have hpp : p crt = some (some "paired-ended") := by rw [hx, hh]
        by_cases hert : ert = "paired-ended"
        · rw [if_pos ⟨hpp, hert⟩, if_pos hert]
        · rw [if_neg (fun hc => hert hc.2), if_neg hert]

theorem controlBody_det (g : CtlGlobals) (p1 p2 : Pick)
    (h1 : ValidPick p1) (h2 : ValidPick p2)
    (hf : ∀ f ∈ g.files, f.file_format = "fastq" → GoodRT f.run_type)
    (row : CtlRow) : controlBody p1 g row = controlBody p2 g row := by
  unfold controlBody
  split
  · rfl
  split
  · rfl
  cases hn : narrowControls g row with
  | error e => rfl
  | ok ctls =>
    have hcomb : combinedEndedness p1 (ctlRunTypes g.files ctls) row.ert row.mapSE
               = combinedEndedness p2 (ctlRunTypes g.files ctls) row.ert row.mapSE := by
      rw [combinedEndedness_eval p1 h1 _ row.ert row.mapSE
            (ctlRunTypes_good g.files hf ctls),
          combinedEndedness_eval p2 h2 _ row.ert row.mapSE
            (ctlRunTypes_good g.files hf ctls)]
    simp only [bind, Except.bind, hcomb]

theorem controlStep_det (g : CtlGlobals) (p1 p2 : Pick)
    (h1 : ValidPick p1) (h2 : ValidPick p2)
    (hf : ∀ f ∈ g.files, f.file_format = "fastq" → GoodRT f.run_type)
    (row : CtlRow) : controlStep p1 g row = controlStep p2 g row := by
  unfold controlStep
  rw [controlBody_det g p1 p2 h1 h2 hf row]

theorem ctlLoop_det (g : CtlGlobals) (p1 p2 : Pick)
    (h1 : ValidPick p1) (h2 : ValidPick p2)
    (hf : ∀ f ∈ g.files, f.file_format = "fastq" → GoodRT f.run_type)
    (rows : List CtlRow) : ctlLoop p1 g rows = ctlLoop p2 g rows := by
  unfold ctlLoop
  exact foldlM_congr _ _ rows
    (fun acc row _ => by rw [controlStep_det g p1 p2 h1 h2 hf row]) emptyCtlOuts

/-- C9: synthesis is deterministic up to the run-type labels being present:
when every fastq file of the batch (by format or by link suffix) carries a
`single-ended` or `paired-ended` run type, any two CPython set-iteration
orders yield the same records and the same error tags. -/
theorem c9_run_type_determinism (p1 p2 : Pick) (inp : Inputs)
    (h1 : ValidPick p1) (h2 : ValidPick p2)
    (hrt : ∀ f ∈ inp.files,
      (f.file_format = "fastq" ∨ strEndsWith f.link "fastq.gz" = true) →
      f.run_type = some "single-ended" ∨ f.run_type = some "paired-ended") :
    synthesize p1 inp = synthesize p2 inp := by
  have hfq : ∀ f ∈ inp.files, strEndsWith f.link "fastq.gz" = true →
      GoodRT f.run_type := fun f hm h => hrt f hm (Or.inr h)
  have hff : ∀ f ∈ inp.files, f.file_format = "fastq" → GoodRT f.run_type :=
    fun f hm h => hrt f hm (Or.inl h)
  have he := expLoop_det ⟨inp.files, inp.linkPre, inp.use_custom_crop_length_flag⟩
    p1 p2 h1 h2 hfq
  have hc := ctlLoop_det
    ⟨inp.files, inp.wildtype_ctl_ids, inp.use_custom_crop_length_flag, inp.linkPre⟩
    p1 p2 h1 h2 hff
  unfold synthesize
  simp only [he, hc]

/-- Witness for C9 at the good batch with the head-first and last-first
iteration orders. -/
theorem c9_run_type_determinism_witness :
    ValidPick defaultPick ∧ ValidPick lastPick ∧
    (∀ f ∈ goodInputs.files,
      (f.file_format = "fastq" ∨ strEndsWith f.link "fastq.gz" = true) →
      f.run_type = some "single-ended" ∨ f.run_type = some "paired-ended") ∧
    synthesize defaultPick goodInputs = synthesize lastPick goodInputs :=
  ⟨validPick_defaultPick, validPick_lastPick, by decide,
   c9_run_type_determinism defaultPick lastPick goodInputs
     validPick_defaultPick validPick_lastPick (by decide)⟩
